import Mathlib

/-!
# Shallow embedding of the 4D network mesh simulation (`src/main.py`)

Pure translation of the simulation engine: node data model, motion, battery
drain, the pairwise reachability test, encounter logging, and the per-tick
stepping algorithm of `NetworkMesh.simulate_step`.

Modelling conventions:
* Python floats are idealised as rationals (`ℚ`); the Euclidean distance
  `math.sqrt(...)` is kept as `Real.sqrt` in `Position.distance_to`, and the
  executable reachability test compares squared quantities (equivalent for
  nonnegative effective ranges; the bridge lemma `rangeTest_eq_distance_le`
  below proves the equivalence against the `Real.sqrt` form).
* `random.random()` (uniform on `[0,1)`) is modelled by an explicit stream
  `g : ℕ → ℚ` together with a counter `k : ℕ` for the next unread sample;
  every function that draws randomness returns the advanced counter.
* Python exceptions (`IndexError` in `store_encounter`, `ValueError` /
  `ZeroDivisionError` in the metrics line of `simulate_step`) are modelled by
  `Option` / `Except String`.
* `PROTOCOL_RANGES[GPS] = float('inf')` is modelled by `none : Option ℚ`.
-/

set_option maxHeartbeats 1000000
set_option maxRecDepth 100000

/-- `class CommunicationType(Enum)`: `BLE`, `WIFI`, `GPS`, `CUSTOM`. -/
inductive CommunicationType where
  | BLE
  | WIFI
  | GPS
  | CUSTOM
deriving DecidableEq, Repr

/-- Iteration order of `for protocol in CommunicationType:` — Python `Enum`
iterates in declaration order: `BLE, WIFI, GPS, CUSTOM`. -/
def CommunicationType.all : List CommunicationType :=
  [.BLE, .WIFI, .GPS, .CUSTOM]

/-- `class NodeState(Enum)`: `ACTIVE`, `OFFLINE`, `INTERMITTENT`. -/
inductive NodeState where
  | ACTIVE
  | OFFLINE
  | INTERMITTENT
deriving DecidableEq, Repr

/-- `@dataclass Position`: `x, y, z` spatial coordinates plus the timestamp `t`. -/
structure Position where
  x : ℚ
  y : ℚ
  z : ℚ
  t : ℚ
deriving DecidableEq, Repr

/-- Squared Euclidean distance `(x₁-x₂)² + (y₁-y₂)² + (z₁-z₂)²`; the radicand of
`Position.distance_to` from the source.  `t` is ignored, as in the source. -/
def Position.dist2 (p q : Position) : ℚ :=
  (p.x - q.x) ^ 2 + (p.y - q.y) ^ 2 + (p.z - q.z) ^ 2

/-- `Position.distance_to`: `math.sqrt((x₁-x₂)² + (y₁-y₂)² + (z₁-z₂)²)`. -/
noncomputable def Position.distance_to (p q : Position) : ℝ :=
  Real.sqrt ((p.dist2 q : ℚ) : ℝ)

/-- One record of `node.memory['encounters']`: peer id, timestamp, peer position
snapshot (3 spatial components) and the protocol label picked in
`store_encounter`. -/
structure Encounter where
  node_id : ℤ
  timestamp : ℚ
  pos : ℚ × ℚ × ℚ
  protocol : CommunicationType
deriving DecidableEq, Repr

/-- `@dataclass Node`.  `memory` is a `Dict` in the source of which only the
`'encounters'` list is ever written or read; it is modelled by that list. -/
structure Node where
  id : ℤ
  position : Position
  state : NodeState := .ACTIVE
  battery_level : ℚ := 100
  protocols : Finset CommunicationType := {CommunicationType.BLE}
  memory_encounters : List Encounter := []
  velocity : ℚ × ℚ × ℚ := (0, 0, 0)
deriving DecidableEq

/-- `Node.PROTOCOL_RANGES`; `GPS`'s `float('inf')` is modelled by `none`. -/
def Node.PROTOCOL_RANGES : CommunicationType → Option ℚ
  | .BLE => some 10
  | .WIFI => some 100
  | .GPS => none
  | .CUSTOM => some 50

/-- `Node.BATTERY_DRAIN_RATES`: `0.01, 0.05, 0.1, 0.03`. -/
def Node.BATTERY_DRAIN_RATES : CommunicationType → ℚ
  | .BLE => 1 / 100
  | .WIFI => 5 / 100
  | .GPS => 10 / 100
  | .CUSTOM => 3 / 100

/-- `Node.update_position`: Euler step `position += velocity * dt`, `t += dt`. -/
def Node.update_position (self : Node) (dt : ℚ) : Node :=
  { self with position :=
      ⟨self.position.x + self.velocity.1 * dt,
       self.position.y + self.velocity.2.1 * dt,
       self.position.z + self.velocity.2.2 * dt,
       self.position.t + dt⟩ }

/-- `Node.drain_battery`: `actual = amount * (0.8 + random()*0.4)`, clamp at 0;
if the clamped battery is 0 go `OFFLINE`; else if it is below 20, a second draw
sends the node `INTERMITTENT` with probability 0.3 (`random() < 0.3`).
The returned `ℕ` is the advanced random-stream counter (one draw on the
`= 0` and `≥ 20` paths, two draws on the `< 20` path, exactly as the source
executes `random.random()`). -/
def Node.drain_battery (self : Node) (amount : ℚ) (g : ℕ → ℚ) (k : ℕ) : Node × ℕ :=
  let actual := amount * (8 / 10 + g k * (4 / 10))
  let b := max 0 (self.battery_level - actual)
  if b = 0 then
    ({ self with battery_level := b, state := .OFFLINE }, k + 1)
  else if b < 20 then
    if g (k + 1) < 3 / 10 then
      ({ self with battery_level := b, state := .INTERMITTENT }, k + 2)
    else
      ({ self with battery_level := b }, k + 2)
  else
    ({ self with battery_level := b }, k + 1)

/-- Models `[p for p in self.protocols & other_node.protocols][0]` in
`store_encounter`: Python set iteration order is unspecified; we fix the
declaration order of the enum.  `none` models the `IndexError` raised when
the intersection is empty. -/
def protoPick (s : Finset CommunicationType) : Option CommunicationType :=
  (CommunicationType.all.filter (fun p => p ∈ s)).head?

/-- `Node.store_encounter`: append a record (peer id, timestamp, peer position
snapshot, a protocol from the intersection of the two protocol sets) to
`self.memory['encounters']`.  `none` models the `IndexError` when the
intersection is empty. -/
def Node.store_encounter (self other : Node) (timestamp : ℚ) : Option Node :=
  match protoPick (self.protocols ∩ other.protocols) with
  | none => none
  | some p =>
      some { self with memory_encounters := self.memory_encounters ++
        [⟨other.id, timestamp, (other.position.x, other.position.y, other.position.z), p⟩] }

/-- The distance test at the end of `can_communicate_with`:
`effective_range = PROTOCOL_RANGES[protocol] * (0.9 + random()*0.2)` and
`return distance <= effective_range`.  The comparison is executed on squares
(`dist2 ≤ effective_range²`), which agrees with the source's
`sqrt dist2 ≤ effective_range` whenever the jitter sample is nonnegative
(lemma `rangeTest_eq_distance_le`).  The infinite `GPS` range always passes.
The random draw is consumed in both cases, as in the source. -/
def rangeTest (self other : Node) (protocol : CommunicationType) (g : ℕ → ℚ) (k : ℕ) :
    Bool × ℕ :=
  match Node.PROTOCOL_RANGES protocol with
  | none => (true, k + 1)
  | some R => (decide (self.position.dist2 other.position ≤ (R * (9 / 10 + g k * (2 / 10))) ^ 2), k + 1)

/-- `Node.can_communicate_with`: fail fast if the protocol is not in both
protocol sets or either node is `OFFLINE`; if either node is `INTERMITTENT`,
one draw fails the attempt with probability 0.7 (`random() > 0.3`); otherwise
compare the Euclidean distance with the jittered effective range. -/
def Node.can_communicate_with (self other : Node) (protocol : CommunicationType)
    (g : ℕ → ℚ) (k : ℕ) : Bool × ℕ :=
  if protocol ∉ self.protocols ∨ protocol ∉ other.protocols ∨
      self.state = .OFFLINE ∨ other.state = .OFFLINE then
    (false, k)
  else if self.state = .INTERMITTENT ∨ other.state = .INTERMITTENT then
    if g k > 3 / 10 then (false, k + 1)
    else rangeTest self other protocol g (k + 1)
  else
    rangeTest self other protocol g k

abbrev Conn := ℤ × ℤ × CommunicationType

/-- `class NetworkMesh`: roster, simulation clock and world bounds.  The unused
`packets` list of the source is omitted (no simulation code reads or writes
it).  The constructor performs no validation, exactly as the source. -/
structure NetworkMesh where
  nodes : List Node
  time : ℚ := 0
  bounds : ℚ × ℚ × ℚ := (1000, 1000, 100)
deriving DecidableEq

/-- `NetworkMesh.__init__(bounds)`: empty roster, `time = 0.0`, bounds stored
verbatim — no validation of any kind. -/
def NetworkMesh.init (bounds : ℚ × ℚ × ℚ) : NetworkMesh :=
  { nodes := [], time := 0, bounds := bounds }

/-- One pass of the three boundary `if`-statements of `simulate_step`: each
axis whose position lies outside `[0, bound]` negates the corresponding
velocity component.  Position is never clamped. -/
def reflectOnce (bounds : ℚ × ℚ × ℚ) (n : Node) : Node :=
  let n1 := if n.position.x < 0 ∨ n.position.x > bounds.1 then
      { n with velocity := (-n.velocity.1, n.velocity.2.1, n.velocity.2.2) } else n
  let n2 := if n1.position.y < 0 ∨ n1.position.y > bounds.2.1 then
      { n1 with velocity := (n1.velocity.1, -n1.velocity.2.1, n1.velocity.2.2) } else n1
  if n2.position.z < 0 ∨ n2.position.z > bounds.2.2 then
      { n2 with velocity := (n2.velocity.1, n2.velocity.2.1, -n2.velocity.2.2) } else n2

/-- The boundary check of `simulate_step` runs inside `for i in range(3)`, so
the same three axis checks execute three times (an out-of-bounds axis has its
velocity negated three times, i.e. negated once net). -/
def boundaryReflect (bounds : ℚ × ℚ × ℚ) (n : Node) : Node :=
  reflectOnce bounds (reflectOnce bounds (reflectOnce bounds n))

/-- The inner `for protocol in CommunicationType:` loop of `simulate_step`:
try the protocols of `ps` in order; the first one for which
`can_communicate_with` succeeds is returned and the loop `break`s (no later
protocol is attempted).  The counter is threaded through each attempt. -/
def tryProtocols (node other : Node) (g : ℕ → ℚ) :
    List CommunicationType → ℕ → Option CommunicationType × ℕ
  | [], k => (none, k)
  | p :: ps, k =>
    let r := node.can_communicate_with other p g k
    if r.1 then (some p, r.2) else tryProtocols node other g ps r.2

/-- Specification helper for `tryProtocols`: `some k'` means every protocol of
the list failed in sequence and the counter ended at `k'`; `none` means one of
them succeeded. -/
def failRun (node other : Node) (g : ℕ → ℚ) :
    List CommunicationType → ℕ → Option ℕ
  | [], k => some k
  | p :: ps, k =>
    let r := node.can_communicate_with other p g k
    if r.1 then none else failRun node other g ps r.2

/-- The `for other_node in self.nodes:` loop body of `simulate_step` for one
`ACTIVE` node: skip peers with equal id; otherwise try the protocols in
enumeration order; on first success append the connection, store the encounter
on the initiating node (an empty protocol intersection would raise
`IndexError`, modelled by `Except.error`), and move to the next peer.
Returns the node (with its appended encounters), the connections contributed
by this node in iteration order, and the advanced counter. -/
def innerLoop (time : ℚ) (g : ℕ → ℚ) :
    List Node → Node → ℕ → Except String (Node × List Conn × ℕ)
  | [], node, k => .ok (node, [], k)
  | other :: rest, node, k =>
    if node.id = other.id then innerLoop time g rest node k
    else
      match tryProtocols node other g CommunicationType.all k with
      | (none, k1) => innerLoop time g rest node k1
      | (some p, k1) =>
        match node.store_encounter other time with
        | none => .error "list index out of range"
        | some node1 =>
          match innerLoop time g rest node1 k1 with
          | .error e => .error e
          | .ok (node2, cs, k2) => .ok (node2, (node.id, other.id, p) :: cs, k2)

/-- The mutable state threaded through the outer `for node in self.nodes:`
loop of `simulate_step`: roster (mutated in place), `active_nodes`,
`connections`, and the random-stream counter. -/
structure SimState where
  nodes : List Node
  active : ℕ
  conns : List Conn
  k : ℕ
deriving DecidableEq

/-- The body of the outer `for node in self.nodes:` loop of `simulate_step`
for the node at index `i`: skip `OFFLINE` nodes; otherwise integrate motion,
apply boundary reflection and battery drain (writing the node back into the
roster in place), and — only if the node is `ACTIVE` after its own drain —
count it and evaluate connectivity against the whole roster as it stands
right now (earlier-indexed nodes already updated this tick, later-indexed
nodes not yet).  A non-`ACTIVE` (i.e. `INTERMITTENT` or freshly `OFFLINE`)
node instead *decrements* the running `active_nodes` counter when positive
(`elif active_nodes > 0: active_nodes -= 1` in the source). -/
def procNode (bounds : ℚ × ℚ × ℚ) (time dt : ℚ) (g : ℕ → ℚ) (st : SimState) (i : ℕ) :
    Except String SimState :=
  match st.nodes[i]? with
  | none => .ok st
  | some node0 =>
    if node0.state = .OFFLINE then .ok st
    else
      let node2 := boundaryReflect bounds (node0.update_position dt)
      let amount := (∑ p ∈ node2.protocols, Node.BATTERY_DRAIN_RATES p) * dt
      let d := node2.drain_battery amount g st.k
      let node3 := d.1
      let roster := st.nodes.set i node3
      if node3.state = .ACTIVE then
        match innerLoop time g roster node3 d.2 with
        | .error e => .error e
        | .ok (node4, cs, k2) =>
          .ok ⟨roster.set i node4, st.active + 1, st.conns ++ cs, k2⟩
      else
        .ok ⟨roster, if 0 < st.active then st.active - 1 else st.active, st.conns, d.2⟩

/-- The metrics printed at the end of a tick: simulated time, the running
`active_nodes` counter, `len(connections)`, `min(...)` and `avg` of the
battery levels over the full roster. -/
structure StepReport where
  time : ℚ
  active_nodes : ℕ
  connections : ℕ
  min_battery : ℚ
  avg_battery : ℚ
deriving DecidableEq

/-- `NetworkMesh.simulate_step(dt)`: advance time, run the fused
per-node motion/drain/connectivity loop over the roster in order, then
compute the printed metrics (`min(...)` over an empty roster raises
`ValueError`, modelled by `Except.error`) and return the mesh after the tick,
the report, the connection list and the advanced random counter. -/
def NetworkMesh.simulate_step (m : NetworkMesh) (dt : ℚ) (g : ℕ → ℚ) (k : ℕ) :
    Except String (NetworkMesh × StepReport × List Conn × ℕ) :=
  let time := m.time + dt
  match (List.range m.nodes.length).foldlM (procNode m.bounds time dt g) ⟨m.nodes, 0, [], k⟩ with
  | .error e => .error e
  | .ok st =>
    match st.nodes with
    | [] => .error "min() arg is an empty sequence"
    | n0 :: rest =>
      .ok (⟨st.nodes, time, m.bounds⟩,
        ⟨time, st.active, st.conns.length,
          rest.foldl (fun a n => min a n.battery_level) n0.battery_level,
          (st.nodes.map Node.battery_level).sum / st.nodes.length⟩,
        st.conns, st.k)

/-- Modelled from the spec (§4.2 step 2 read as a completed phase): the
motion/boundary/drain update of one non-`OFFLINE` node, with no connectivity
evaluation.  Used by `NetworkMesh.simulate_step_barrier` only, as the
comparison point for the barrier reading of the algorithm. -/
def updatePhase (bounds : ℚ × ℚ × ℚ) (dt : ℚ) (g : ℕ → ℚ) (st : List Node × ℕ) (i : ℕ) :
    List Node × ℕ :=
  match st.1[i]? with
  | none => st
  | some node0 =>
    if node0.state = .OFFLINE then st
    else
      let node2 := boundaryReflect bounds (node0.update_position dt)
      let amount := (∑ p ∈ node2.protocols, Node.BATTERY_DRAIN_RATES p) * dt
      let d := node2.drain_battery amount g st.2
      (st.1.set i d.1, d.2)

/-- Modelled from the spec (§4.2 step 3 read as a phase that starts only after
step 2 has completed for every node): connectivity evaluation for the node at
index `i` against the fully updated roster. -/
def connectPhase (time : ℚ) (g : ℕ → ℚ) (st : List Node × List Conn × ℕ) (i : ℕ) :
    Except String (List Node × List Conn × ℕ) :=
  match st.1[i]? with
  | none => .ok st
  | some node =>
    if node.state = .ACTIVE then
      match innerLoop time g st.1 node st.2.2 with
      | .error e => .error e
      | .ok (node1, cs, k1) => .ok (st.1.set i node1, st.2.1 ++ cs, k1)
    else .ok st

/-- Modelled from the spec: the barrier reading of §4.2 — "any parallelization
must complete all motion/drain updates (step 2) as a barrier before
connectivity evaluation begins (step 3), since connectivity depends on final
post-drain positions and states of all nodes".  All motion/boundary/drain
updates run first, then all connectivity evaluations observe the post-motion,
post-drain roster.  Returns the final roster, the connections and the advanced
random counter. -/
def NetworkMesh.simulate_step_barrier (m : NetworkMesh) (dt : ℚ) (g : ℕ → ℚ) (k : ℕ) :
    Except String (List Node × List Conn × ℕ) :=
  let time := m.time + dt
  let ph1 := (List.range m.nodes.length).foldl (updatePhase m.bounds dt g) (m.nodes, k)
  (List.range ph1.1.length).foldlM (connectPhase time g) (ph1.1, [], ph1.2)

/-- Number of connection records of the ordered pair `(a, b)` in a connection
list (observation helper for the per-pair uniqueness statement). -/
def pairCount (a b : ℤ) (l : List Conn) : ℕ :=
  (l.filter (fun c => decide (c.1 = a ∧ c.2.1 = b))).length

/-- Number of `ACTIVE` nodes in a roster (observation helper; what the spec
says the reported `active_nodes` metric should equal). -/
def activeCount (ns : List Node) : ℕ :=
  (ns.filter (fun n => decide (n.state = NodeState.ACTIVE))).length

/-- The all-zeros random stream, a legal outcome of `random.random()` draws
(used to instantiate universally quantified scenario theorems). -/
def gzero : ℕ → ℚ := fun _ => 0

/-- A test node supporting only `BLE`, as in the spec's two-node scenario
(`es` is its encounter log, empty before a run). -/
def bleNode (i : ℤ) (p : Position) (v : ℚ × ℚ × ℚ) (s : NodeState) (b : ℚ)
    (es : List Encounter) : Node :=
  { id := i
    position := p
    state := s
    battery_level := b
    protocols := {CommunicationType.BLE}
    memory_encounters := es
    velocity := v }

/-- Battery of a full `BLE`-only node after one `dt = 1` drain with jitter
sample `r`: `100 − 0.01·(0.8 + 0.4·r)`. -/
def drainB (r : ℚ) : ℚ := 100 - 1 / 100 * (8 / 10 + r * (4 / 10))

/-- The spec §8 scenario: two `ACTIVE` `BLE`-only nodes at distance 5, zero
velocity, full battery, roomy bounds. -/
def scenarioPair : NetworkMesh :=
  { nodes := [bleNode 0 ⟨0, 0, 0, 0⟩ (0, 0, 0) .ACTIVE 100 [],
              bleNode 1 ⟨5, 0, 0, 0⟩ (0, 0, 0) .ACTIVE 100 []]
    time := 0
    bounds := (1000, 1000, 1000) }

/-- Like `scenarioPair` but the second node moves at velocity `(95, 0, 0)`:
after this tick's motion it sits at distance 100 from the first node, far
outside every possible effective `BLE` range. -/
def scenarioMoving : NetworkMesh :=
  { nodes := [bleNode 0 ⟨0, 0, 0, 0⟩ (0, 0, 0) .ACTIVE 100 [],
              bleNode 1 ⟨5, 0, 0, 0⟩ (95, 0, 0) .ACTIVE 100 []]
    time := 0
    bounds := (1000, 1000, 1000) }

/-- One `ACTIVE` and one `INTERMITTENT` node, far apart (distance 500, no
connection possible), full batteries. -/
def scenarioMixed : NetworkMesh :=
  { nodes := [bleNode 0 ⟨0, 0, 0, 0⟩ (0, 0, 0) .ACTIVE 100 [],
              bleNode 1 ⟨500, 0, 0, 0⟩ (0, 0, 0) .INTERMITTENT 100 []]
    time := 0
    bounds := (1000, 1000, 1000) }

/-- A roster holding a single exhausted `OFFLINE` node. -/
def scenarioOffline : NetworkMesh :=
  { nodes := [bleNode 7 ⟨1, 2, 3, 4⟩ (1, 1, 1) .OFFLINE 0 []]
    time := 0
    bounds := (1000, 1000, 1000) }

/-- A mesh built over nonsensical negative bounds with one healthy node (used
to exhibit the absence of configuration validation). -/
def scenarioBadBounds : NetworkMesh :=
  { nodes := [bleNode 0 ⟨5, 5, 5, 0⟩ (0, 0, 0) .ACTIVE 100 []]
    time := 0
    bounds := (-1, -1, -1) }

/-- Observation helper: the connection list of a tick result (empty on a
crashed tick). -/
def connsOf (r : Except String (NetworkMesh × StepReport × List Conn × ℕ)) : List Conn :=
  match r with
  | .ok (_, _, cs, _) => cs
  | .error _ => []

/-- Observation helper: the connection list of a barrier-model tick result. -/
def connsOfBarrier (r : Except String (List Node × List Conn × ℕ)) : List Conn :=
  match r with
  | .ok (_, cs, _) => cs
  | .error _ => []

/-- Observation helper: the `active_nodes` figure a tick reports (absent on a
crashed tick). -/
def reportedActive (r : Except String (NetworkMesh × StepReport × List Conn × ℕ)) : Option ℕ :=
  match r with
  | .ok (_, rep, _, _) => some rep.active_nodes
  | .error _ => none

/-- Observation helper: the number of connections a tick reports. -/
def reportedConnections (r : Except String (NetworkMesh × StepReport × List Conn × ℕ)) :
    Option ℕ :=
  match r with
  | .ok (_, rep, _, _) => some rep.connections
  | .error _ => none

/-- Observation helper: the roster after a tick (empty on a crashed tick). -/
def rosterOf (r : Except String (NetworkMesh × StepReport × List Conn × ℕ)) : List Node :=
  match r with
  | .ok (m1, _, _, _) => m1.nodes
  | .error _ => []

/-- Observation helper: whether a tick completed without raising. -/
def stepOk (r : Except String (NetworkMesh × StepReport × List Conn × ℕ)) : Bool :=
  match r with
  | .ok _ => true
  | .error _ => false

/-!
## Theorems

`Rat`'s arithmetic is `@[irreducible]` in Batteries, which blocks `decide` /
`rfl` evaluation of concrete runs of the engine; restore the ordinary
reducibility of the four operations used here so that concrete scenario
computations reduce. -/

set_option allowUnsafeReducibility true
attribute [semireducible] Rat.add Rat.mul Rat.sub Rat.inv

theorem CommunicationType.mem_all (p : CommunicationType) : p ∈ CommunicationType.all := by
  cases p <;> simp [CommunicationType.all]

theorem Position.dist2_nonneg (p q : Position) : 0 ≤ p.dist2 q := by
  unfold Position.dist2; positivity

/-- Bridge between the executable squared comparison in `rangeTest` and the
source's `math.sqrt` comparison: for a finite nonnegative range `R` and a
nonnegative jitter sample, the boolean `rangeTest` is `true` iff
`distance_to ≤ R * (0.9 + 0.2·r)` over the reals. -/
theorem rangeTest_eq_distance_le (self other : Node) (p : CommunicationType) (R : ℚ)
    (g : ℕ → ℚ) (k : ℕ) (hR : Node.PROTOCOL_RANGES p = some R) (hR0 : 0 ≤ R)
    (hg : 0 ≤ g k) :
    ((rangeTest self other p g k).1 = true ↔
      self.position.distance_to other.position ≤ ((R * (9 / 10 + g k * (2 / 10)) : ℚ) : ℝ)) := by
  have he : (0 : ℚ) ≤ R * (9 / 10 + g k * (2 / 10)) := by nlinarith
  have heR : (0 : ℝ) ≤ ((R * (9 / 10 + g k * (2 / 10)) : ℚ) : ℝ) := by exact_mod_cast he
  rw [rangeTest, hR]
  simp only [decide_eq_true_eq]
  unfold Position.distance_to
  rw [Real.sqrt_le_left heR,
    show ((R * (9 / 10 + g k * (2 / 10)) : ℚ) : ℝ) ^ 2 =
      (((R * (9 / 10 + g k * (2 / 10))) ^ 2 : ℚ) : ℝ) by push_cast; ring]
  constructor <;> intro h <;> exact_mod_cast h

/-- When the post-drain battery stays at or above 20, `drain_battery` only
subtracts the jittered amount and consumes one random sample. -/
theorem drain_battery_keep (n : Node) (amount : ℚ) (g : ℕ → ℚ) (k : ℕ)
    (h : 20 ≤ n.battery_level - amount * (8 / 10 + g k * (4 / 10))) :
    n.drain_battery amount g k =
      ({ n with battery_level := n.battery_level - amount * (8 / 10 + g k * (4 / 10)) }, k + 1) := by
  have h0 : (0 : ℚ) ≤ n.battery_level - amount * (8 / 10 + g k * (4 / 10)) := by linarith
  have h1 : n.battery_level - amount * (8 / 10 + g k * (4 / 10)) ≠ 0 := by
    intro hz; rw [hz] at h; norm_num at h
  simp only [Node.drain_battery]
  rw [max_eq_right h0, if_neg h1, if_neg (not_lt.mpr h)]

/-- `drain_battery` never produces a negative battery (the `max(0.0, …)`
clamp). -/
theorem drain_battery_nonneg (n : Node) (amount : ℚ) (g : ℕ → ℚ) (k : ℕ) :
    0 ≤ (n.drain_battery amount g k).1.battery_level := by
  simp only [Node.drain_battery]
  split
  · exact le_max_left _ _
  · split
    · split
      · exact le_max_left _ _
      · exact le_max_left _ _
    · exact le_max_left _ _

/-- If `drain_battery` leaves the battery at exactly 0, the node's state was
set to `OFFLINE` in that same call. -/
theorem drain_battery_zero_offline (n : Node) (amount : ℚ) (g : ℕ → ℚ) (k : ℕ)
    (h : (n.drain_battery amount g k).1.battery_level = 0) :
    (n.drain_battery amount g k).1.state = .OFFLINE := by
  simp only [Node.drain_battery] at h ⊢
  by_cases hb : max 0 (n.battery_level - amount * (8 / 10 + g k * (4 / 10))) = 0
  · rw [if_pos hb]
  · rw [if_neg hb] at h ⊢
    by_cases hlt : max 0 (n.battery_level - amount * (8 / 10 + g k * (4 / 10))) < 20
    · rw [if_pos hlt] at h ⊢
      by_cases hr : g (k + 1) < 3 / 10
      · rw [if_pos hr] at h ⊢
        exact absurd h hb
      · rw [if_neg hr] at h ⊢
        exact absurd h hb
    · rw [if_neg hlt] at h ⊢
      exact absurd h hb

/-- The fail-fast guard of `can_communicate_with`: no shared protocol or an
`OFFLINE` endpoint returns `False` without consuming randomness. -/
theorem ccw_guard (a b : Node) (p : CommunicationType) (g : ℕ → ℚ) (k : ℕ)
    (h : p ∉ a.protocols ∨ p ∉ b.protocols ∨ a.state = .OFFLINE ∨ b.state = .OFFLINE) :
    a.can_communicate_with b p g k = (false, k) := by
  unfold Node.can_communicate_with
  rw [if_pos h]

/-- A successful `can_communicate_with` needs the protocol in both protocol
sets (contrapositive of the guard). -/
theorem ccw_true_mem (a b : Node) (p : CommunicationType) (g : ℕ → ℚ) (k : ℕ)
    (h : (a.can_communicate_with b p g k).1 = true) :
    p ∈ a.protocols ∧ p ∈ b.protocols := by
  by_contra hc
  rw [not_and_or] at hc
  have : a.can_communicate_with b p g k = (false, k) := by
    apply ccw_guard
    rcases hc with h1 | h2
    · exact Or.inl h1
    · exact Or.inr (Or.inl h2)
  rw [this] at h
  simp at h

/-- For two `ACTIVE` endpoints the guard and the intermittent branch are both
skipped: `can_communicate_with` is exactly the jittered range test, provided
the protocol is on both sides. -/
theorem ccw_active (a b : Node) (p : CommunicationType) (g : ℕ → ℚ) (k : ℕ)
    (ha : a.state = .ACTIVE) (hb : b.state = .ACTIVE)
    (hpa : p ∈ a.protocols) (hpb : p ∈ b.protocols) :
    a.can_communicate_with b p g k = rangeTest a b p g k := by
  have h1 : ¬(p ∉ a.protocols ∨ p ∉ b.protocols ∨ a.state = .OFFLINE ∨ b.state = .OFFLINE) := by
    simp [hpa, hpb, ha, hb]
  have h2 : ¬(a.state = .INTERMITTENT ∨ b.state = .INTERMITTENT) := by
    simp [ha, hb]
  unfold Node.can_communicate_with
  rw [if_neg h1, if_neg h2]

/-- Two `ACTIVE` `BLE`-capable nodes within squared distance 81 always reach
each other over `BLE` (the effective range is at least `10 × 0.9 = 9` for any
jitter sample in `[0,1)`), consuming exactly one draw. -/
theorem ccw_ble_near (a b : Node) (g : ℕ → ℚ) (k : ℕ)
    (ha : a.state = .ACTIVE) (hb : b.state = .ACTIVE)
    (hpa : CommunicationType.BLE ∈ a.protocols) (hpb : CommunicationType.BLE ∈ b.protocols)
    (hg : 0 ≤ g k) (hd : a.position.dist2 b.position ≤ 81) :
    a.can_communicate_with b .BLE g k = (true, k + 1) := by
  rw [ccw_active a b _ g k ha hb hpa hpb]
  have hq : a.position.dist2 b.position ≤ ((10 : ℚ) * (9 / 10 + g k * (2 / 10))) ^ 2 := by
    nlinarith [sq_nonneg (g k)]
  simp [rangeTest, Node.PROTOCOL_RANGES, hq]

/-- Two `ACTIVE` nodes supporting a finite-range protocol `p` whose squared
distance exceeds `(1.1 × R)²` can never reach each other over `p`: the jitter
factor is below `1.1` for any sample in `[0,1)`.  One draw is consumed. -/
theorem ccw_far (a b : Node) (p : CommunicationType) (R : ℚ) (g : ℕ → ℚ) (k : ℕ)
    (ha : a.state = .ACTIVE) (hb : b.state = .ACTIVE)
    (hpa : p ∈ a.protocols) (hpb : p ∈ b.protocols)
    (hR : Node.PROTOCOL_RANGES p = some R) (hR0 : 0 ≤ R)
    (hg0 : 0 ≤ g k) (hg1 : g k < 1)
    (hd : (11 / 10 * R) ^ 2 < a.position.dist2 b.position) :
    a.can_communicate_with b p g k = (false, k + 1) := by
  rw [ccw_active a b p g k ha hb hpa hpb]
  have hle : R * (9 / 10 + g k * (2 / 10)) ≤ 11 / 10 * R := by nlinarith
  have he0 : 0 ≤ R * (9 / 10 + g k * (2 / 10)) := by nlinarith
  have hq : ¬(a.position.dist2 b.position ≤ (R * (9 / 10 + g k * (2 / 10))) ^ 2) := by
    push_neg
    nlinarith
  simp [rangeTest, hR, hq]

/-- A protocol succeeding at the head of the list is the one returned. -/
theorem tryProtocols_cons_true (node other : Node) (g : ℕ → ℚ)
    (p : CommunicationType) (ps : List CommunicationType) (k k1 : ℕ)
    (h : node.can_communicate_with other p g k = (true, k1)) :
    tryProtocols node other g (p :: ps) k = (some p, k1) := by
  simp [tryProtocols, h]

/-- A protocol failing at the head of the list hands over to the tail with the
advanced counter. -/
theorem tryProtocols_cons_false (node other : Node) (g : ℕ → ℚ)
    (p : CommunicationType) (ps : List CommunicationType) (k k1 : ℕ)
    (h : node.can_communicate_with other p g k = (false, k1)) :
    tryProtocols node other g (p :: ps) k = tryProtocols node other g ps k1 := by
  simp [tryProtocols, h]

/-- For a node supporting only `BLE`, the four-protocol loop reduces to the
single `BLE` attempt: the other three fail the guard without consuming
randomness. -/
theorem tryProtocols_ble_only (node other : Node) (g : ℕ → ℚ) (k k1 : ℕ) (r : Bool)
    (hW : CommunicationType.WIFI ∉ node.protocols)
    (hG : CommunicationType.GPS ∉ node.protocols)
    (hC : CommunicationType.CUSTOM ∉ node.protocols)
    (h : node.can_communicate_with other .BLE g k = (r, k1)) :
    tryProtocols node other g CommunicationType.all k =
      (if r = true then (some CommunicationType.BLE, k1) else (none, k1)) := by
  have hw := ccw_guard node other .WIFI g k1 (Or.inl hW)
  have hgp := ccw_guard node other .GPS g k1 (Or.inl hG)
  have hc := ccw_guard node other .CUSTOM g k1 (Or.inl hC)
  cases r
  · simp [CommunicationType.all, tryProtocols, h, hw, hgp, hc]
  · simp [CommunicationType.all, tryProtocols, h]

/-- What `protoPick` returns is a member of the set it picked from. -/
theorem protoPick_mem (s : Finset CommunicationType) (p : CommunicationType)
    (h : protoPick s = some p) : p ∈ s := by
  unfold protoPick at h
  have hp : p ∈ CommunicationType.all.filter (fun q => q ∈ s) :=
    List.mem_of_mem_head? (Option.mem_def.mpr h)
  rw [List.mem_filter] at hp
  simpa using hp.2

/-- `protoPick` succeeds on every nonempty set, returning a member. -/
theorem protoPick_of_nonempty (s : Finset CommunicationType) (h : s.Nonempty) :
    ∃ p, protoPick s = some p ∧ p ∈ s := by
  obtain ⟨x, hx⟩ := h
  have hxf : x ∈ CommunicationType.all.filter (fun q => q ∈ s) := by
    rw [List.mem_filter]
    exact ⟨CommunicationType.mem_all x, by simpa using hx⟩
  have hne := List.ne_nil_of_mem hxf
  obtain ⟨p, l, hl⟩ := List.exists_cons_of_ne_nil hne
  have hp : protoPick s = some p := by
    unfold protoPick
    rw [hl]
    rfl
  exact ⟨p, hp, protoPick_mem s p hp⟩

/-- `store_encounter` succeeds whenever the protocol intersection is nonempty,
appending one record whose protocol label lies in both protocol sets. -/
theorem store_encounter_spec (a b : Node) (t : ℚ)
    (h : (a.protocols ∩ b.protocols).Nonempty) :
    ∃ p, a.store_encounter b t = some { a with memory_encounters :=
        a.memory_encounters ++ [⟨b.id, t, (b.position.x, b.position.y, b.position.z), p⟩] } ∧
      p ∈ a.protocols ∧ p ∈ b.protocols := by
  obtain ⟨p, hp, hmem⟩ := protoPick_of_nonempty _ h
  rw [Finset.mem_inter] at hmem
  refine ⟨p, ?_, hmem.1, hmem.2⟩
  unfold Node.store_encounter
  rw [hp]

/-- `store_encounter` only appends to the encounter log: id, position, state,
battery, protocols and velocity are untouched. -/
theorem store_encounter_frame (a b : Node) (t : ℚ) (n1 : Node)
    (h : a.store_encounter b t = some n1) :
    n1.id = a.id ∧ n1.protocols = a.protocols ∧ n1.state = a.state ∧
      n1.position = a.position ∧ n1.battery_level = a.battery_level ∧
      n1.velocity = a.velocity := by
  unfold Node.store_encounter at h
  cases hp : protoPick (a.protocols ∩ b.protocols) with
  | none => rw [hp] at h; cases h
  | some p =>
    rw [hp] at h
    injection h with h
    rw [← h]
    exact ⟨rfl, rfl, rfl, rfl, rfl, rfl⟩

theorem except_ok_bind {α β : Type} (x : α) (f : α → Except String β) :
    (Except.ok x >>= f : Except String β) = f x := rfl


@[simp] theorem bleNode_id (i : ℤ) (p : Position) (v : ℚ × ℚ × ℚ) (s : NodeState) (b : ℚ)
    (es : List Encounter) : (bleNode i p v s b es).id = i := rfl

@[simp] theorem bleNode_state (i : ℤ) (p : Position) (v : ℚ × ℚ × ℚ) (s : NodeState) (b : ℚ)
    (es : List Encounter) : (bleNode i p v s b es).state = s := rfl

@[simp] theorem bleNode_battery (i : ℤ) (p : Position) (v : ℚ × ℚ × ℚ) (s : NodeState) (b : ℚ)
    (es : List Encounter) : (bleNode i p v s b es).battery_level = b := rfl

@[simp] theorem bleNode_position (i : ℤ) (p : Position) (v : ℚ × ℚ × ℚ) (s : NodeState) (b : ℚ)
    (es : List Encounter) : (bleNode i p v s b es).position = p := rfl

@[simp] theorem bleNode_protocols (i : ℤ) (p : Position) (v : ℚ × ℚ × ℚ) (s : NodeState) (b : ℚ)
    (es : List Encounter) : (bleNode i p v s b es).protocols = {CommunicationType.BLE} := rfl

@[simp] theorem bleNode_encounters (i : ℤ) (p : Position) (v : ℚ × ℚ × ℚ) (s : NodeState) (b : ℚ)
    (es : List Encounter) : (bleNode i p v s b es).memory_encounters = es := rfl

/-- `innerLoop` on the empty peer list. -/
theorem innerLoop_nil (time : ℚ) (g : ℕ → ℚ) (node : Node) (k : ℕ) :
    innerLoop time g [] node k = .ok (node, [], k) := rfl

/-- `innerLoop` skips a peer with the same id without consuming randomness. -/
theorem innerLoop_skip (time : ℚ) (g : ℕ → ℚ) (other : Node) (rest : List Node)
    (node : Node) (k : ℕ) (h : node.id = other.id) :
    innerLoop time g (other :: rest) node k = innerLoop time g rest node k := by
  simp only [innerLoop]
  rw [if_pos h]

/-- `innerLoop` on a peer for which some protocol succeeds: the connection is
prepended, the encounter stored, and the loop continues on the remaining
peers. -/
theorem innerLoop_conn (time : ℚ) (g : ℕ → ℚ) (other : Node) (rest : List Node)
    (node node1 node2 : Node) (k k1 k2 : ℕ) (p : CommunicationType) (cs : List Conn)
    (hid : ¬node.id = other.id)
    (htry : tryProtocols node other g CommunicationType.all k = (some p, k1))
    (hst : node.store_encounter other time = some node1)
    (hrest : innerLoop time g rest node1 k1 = .ok (node2, cs, k2)) :
    innerLoop time g (other :: rest) node k = .ok (node2, (node.id, other.id, p) :: cs, k2) := by
  simp only [innerLoop]
  rw [if_neg hid, htry, hst]
  dsimp only
  rw [hrest]

/-- `innerLoop` on a peer for which every protocol fails: no connection, loop
continues with the advanced counter. -/
theorem innerLoop_noconn (time : ℚ) (g : ℕ → ℚ) (other : Node) (rest : List Node)
    (node : Node) (k k1 : ℕ)
    (hid : ¬node.id = other.id)
    (htry : tryProtocols node other g CommunicationType.all k = (none, k1)) :
    innerLoop time g (other :: rest) node k = innerLoop time g rest node k1 := by
  simp only [innerLoop]
  rw [if_neg hid, htry]

/-- Evaluation of `procNode` on an index holding an `OFFLINE` node: the state
is returned untouched. -/
theorem procNode_eval_offline (bounds : ℚ × ℚ × ℚ) (time dt : ℚ) (g : ℕ → ℚ)
    (st : SimState) (i : ℕ) (node0 : Node)
    (h0 : st.nodes[i]? = some node0) (hoff : node0.state = .OFFLINE) :
    procNode bounds time dt g st i = .ok st := by
  simp only [procNode, h0]
  rw [if_pos hoff]

/-- Evaluation of `procNode` on a node that is `ACTIVE` after its drain. -/
theorem procNode_eval_active (bounds : ℚ × ℚ × ℚ) (time dt : ℚ) (g : ℕ → ℚ)
    (ns : List Node) (i : ℕ) (act : ℕ) (conns : List Conn) (k : ℕ)
    (node0 node3 node4 : Node) (k1 k2 : ℕ) (cs : List Conn)
    (h0 : ns[i]? = some node0)
    (hoff : ¬node0.state = .OFFLINE)
    (hdr : (boundaryReflect bounds (node0.update_position dt)).drain_battery
        ((∑ p ∈ (boundaryReflect bounds (node0.update_position dt)).protocols,
          Node.BATTERY_DRAIN_RATES p) * dt) g k = (node3, k1))
    (hact : node3.state = .ACTIVE)
    (hil : innerLoop time g (ns.set i node3) node3 k1 = .ok (node4, cs, k2)) :
    procNode bounds time dt g ⟨ns, act, conns, k⟩ i =
      .ok ⟨(ns.set i node3).set i node4, act + 1, conns ++ cs, k2⟩ := by
  simp only [procNode, h0]
  rw [if_neg hoff, hdr]
  dsimp only
  rw [if_pos hact, hil]

/-- Evaluation of `procNode` on a non-`OFFLINE` node that is not `ACTIVE`
after its drain (`INTERMITTENT`, or newly `OFFLINE` from this very drain):
the roster is updated and the running active counter is decremented when
positive. -/
theorem procNode_eval_inactive (bounds : ℚ × ℚ × ℚ) (time dt : ℚ) (g : ℕ → ℚ)
    (ns : List Node) (i : ℕ) (act : ℕ) (conns : List Conn) (k : ℕ)
    (node0 node3 : Node) (k1 : ℕ)
    (h0 : ns[i]? = some node0)
    (hoff : ¬node0.state = .OFFLINE)
    (hdr : (boundaryReflect bounds (node0.update_position dt)).drain_battery
        ((∑ p ∈ (boundaryReflect bounds (node0.update_position dt)).protocols,
          Node.BATTERY_DRAIN_RATES p) * dt) g k = (node3, k1))
    (hact : ¬node3.state = .ACTIVE) :
    procNode bounds time dt g ⟨ns, act, conns, k⟩ i =
      .ok ⟨ns.set i node3, if 0 < act then act - 1 else act, conns, k1⟩ := by
  simp only [procNode, h0]
  rw [if_neg hoff, hdr]
  dsimp only
  rw [if_neg hact]

/-- Two-step `foldlM` over `List.range 2` in the `Except` monad. -/
theorem foldlM_range2 (f : SimState → ℕ → Except String SimState) (init mid fin : SimState)
    (h0 : f init 0 = .ok mid) (h1 : f mid 1 = .ok fin) :
    (List.range 2).foldlM f init = .ok fin := by
  rw [show List.range 2 = [0, 1] from rfl]
  rw [List.foldlM_cons, h0, except_ok_bind, List.foldlM_cons, h1, except_ok_bind,
    List.foldlM_nil]
  rfl

/-- One-step `foldlM` over `List.range 1` in the `Except` monad. -/
theorem foldlM_range1 (f : SimState → ℕ → Except String SimState) (init fin : SimState)
    (h0 : f init 0 = .ok fin) :
    (List.range 1).foldlM f init = .ok fin := by
  rw [show List.range 1 = [0] from rfl]
  rw [List.foldlM_cons, h0, except_ok_bind, List.foldlM_nil]
  rfl

/-- Assembling a full `simulate_step` from an evaluated roster fold (nonempty
final roster). -/
theorem simulate_step_eval (m : NetworkMesh) (dt : ℚ) (g : ℕ → ℚ) (k : ℕ) (st : SimState)
    (n0 : Node) (rest : List Node)
    (h : (List.range m.nodes.length).foldlM (procNode m.bounds (m.time + dt) dt g)
      ⟨m.nodes, 0, [], k⟩ = .ok st)
    (hne : st.nodes = n0 :: rest) :
    m.simulate_step dt g k = .ok (⟨st.nodes, m.time + dt, m.bounds⟩,
      ⟨m.time + dt, st.active, st.conns.length,
        rest.foldl (fun a n => min a n.battery_level) n0.battery_level,
        (st.nodes.map Node.battery_level).sum / st.nodes.length⟩, st.conns, st.k) := by
  simp only [NetworkMesh.simulate_step]
  rw [h]
  dsimp only
  rw [hne]

/-- Processing node 0 of `scenarioPair` in a tick with `dt = 1`: it stays
put, drains to `drainB (g 0)`, stays `ACTIVE`, and connects to node 1 (still
at its pre-motion position, distance 5) over `BLE`. -/
theorem pairStep0 (g : ℕ → ℚ) (h01 : g 0 < 1) (h10 : 0 ≤ g 1) :
    procNode (1000, 1000, 1000) 1 1 g ⟨scenarioPair.nodes, 0, [], 0⟩ 0 =
      .ok ⟨[bleNode 0 ⟨0, 0, 0, 1⟩ (0, 0, 0) .ACTIVE (drainB (g 0)) [⟨1, 1, (5, 0, 0), .BLE⟩],
            bleNode 1 ⟨5, 0, 0, 0⟩ (0, 0, 0) .ACTIVE 100 []],
           1, [(0, 1, .BLE)], 2⟩ := by
  have hdr : (boundaryReflect (1000, 1000, 1000)
        ((bleNode 0 ⟨0, 0, 0, 0⟩ (0, 0, 0) .ACTIVE 100 []).update_position 1)).drain_battery
      ((∑ p ∈ (boundaryReflect (1000, 1000, 1000)
        ((bleNode 0 ⟨0, 0, 0, 0⟩ (0, 0, 0) .ACTIVE 100 []).update_position 1)).protocols,
        Node.BATTERY_DRAIN_RATES p) * 1) g 0 =
      (bleNode 0 ⟨0, 0, 0, 1⟩ (0, 0, 0) .ACTIVE (drainB (g 0)) [], 1) := by
    rw [show boundaryReflect (1000, 1000, 1000)
        ((bleNode 0 ⟨0, 0, 0, 0⟩ (0, 0, 0) .ACTIVE 100 []).update_position 1) =
        bleNode 0 ⟨0, 0, 0, 1⟩ (0, 0, 0) .ACTIVE 100 [] from by decide]
    rw [show (∑ p ∈ (bleNode 0 ⟨0, 0, 0, 1⟩ (0, 0, 0) .ACTIVE 100 []).protocols,
        Node.BATTERY_DRAIN_RATES p) * (1 : ℚ) = 1 / 100 from by decide]
    rw [drain_battery_keep _ _ g 0 (by simp only [bleNode_battery]; nlinarith)]
    rfl
  have hccw : (bleNode 0 ⟨0, 0, 0, 1⟩ (0, 0, 0) .ACTIVE (drainB (g 0)) []).can_communicate_with
      (bleNode 1 ⟨5, 0, 0, 0⟩ (0, 0, 0) .ACTIVE 100 []) .BLE g 1 = (true, 2) := by
    refine ccw_ble_near (bleNode 0 ⟨0, 0, 0, 1⟩ (0, 0, 0) .ACTIVE (drainB (g 0)) [])
      (bleNode 1 ⟨5, 0, 0, 0⟩ (0, 0, 0) .ACTIVE 100 []) g 1 rfl rfl
      (by simp) (by simp) h10 ?_
    norm_num [bleNode_position, Position.dist2]
  have htry : tryProtocols (bleNode 0 ⟨0, 0, 0, 1⟩ (0, 0, 0) .ACTIVE (drainB (g 0)) [])
      (bleNode 1 ⟨5, 0, 0, 0⟩ (0, 0, 0) .ACTIVE 100 []) g CommunicationType.all 1 =
      (some .BLE, 2) := by
    simpa using tryProtocols_ble_only
      (bleNode 0 ⟨0, 0, 0, 1⟩ (0, 0, 0) .ACTIVE (drainB (g 0)) [])
      (bleNode 1 ⟨5, 0, 0, 0⟩ (0, 0, 0) .ACTIVE 100 []) g 1 2 true
      (by simp) (by simp) (by simp) hccw
  have hil : innerLoop 1 g (scenarioPair.nodes.set 0
        (bleNode 0 ⟨0, 0, 0, 1⟩ (0, 0, 0) .ACTIVE (drainB (g 0)) []))
      (bleNode 0 ⟨0, 0, 0, 1⟩ (0, 0, 0) .ACTIVE (drainB (g 0)) []) 1 =
      .ok (bleNode 0 ⟨0, 0, 0, 1⟩ (0, 0, 0) .ACTIVE (drainB (g 0)) [⟨1, 1, (5, 0, 0), .BLE⟩],
        [(0, 1, .BLE)], 2) := by
    rw [show scenarioPair.nodes.set 0
        (bleNode 0 ⟨0, 0, 0, 1⟩ (0, 0, 0) .ACTIVE (drainB (g 0)) []) =
        [bleNode 0 ⟨0, 0, 0, 1⟩ (0, 0, 0) .ACTIVE (drainB (g 0)) [],
         bleNode 1 ⟨5, 0, 0, 0⟩ (0, 0, 0) .ACTIVE 100 []] from rfl]
    rw [innerLoop_skip 1 g _ _ _ 1 rfl]
    exact (innerLoop_conn 1 g (bleNode 1 ⟨5, 0, 0, 0⟩ (0, 0, 0) .ACTIVE 100 []) []
      (bleNode 0 ⟨0, 0, 0, 1⟩ (0, 0, 0) .ACTIVE (drainB (g 0)) []) _ _ 1 2 2 .BLE []
      (by norm_num) htry rfl (innerLoop_nil 1 g _ 2)).trans rfl
  exact (procNode_eval_active (1000, 1000, 1000) 1 1 g scenarioPair.nodes 0 0 [] 0
    (bleNode 0 ⟨0, 0, 0, 0⟩ (0, 0, 0) .ACTIVE 100 []) _ _ _ _ _
    rfl (by decide) hdr rfl hil).trans rfl

/-- Processing node 1 of `scenarioPair` after node 0's pass: it drains to
`drainB (g 2)`, stays `ACTIVE`, and connects back to node 0 over `BLE`. -/
theorem pairStep1 (g : ℕ → ℚ) (h21 : g 2 < 1) (h30 : 0 ≤ g 3) :
    procNode (1000, 1000, 1000) 1 1 g
      ⟨[bleNode 0 ⟨0, 0, 0, 1⟩ (0, 0, 0) .ACTIVE (drainB (g 0)) [⟨1, 1, (5, 0, 0), .BLE⟩],
        bleNode 1 ⟨5, 0, 0, 0⟩ (0, 0, 0) .ACTIVE 100 []],
       1, [(0, 1, .BLE)], 2⟩ 1 =
      .ok ⟨[bleNode 0 ⟨0, 0, 0, 1⟩ (0, 0, 0) .ACTIVE (drainB (g 0)) [⟨1, 1, (5, 0, 0), .BLE⟩],
            bleNode 1 ⟨5, 0, 0, 1⟩ (0, 0, 0) .ACTIVE (drainB (g 2)) [⟨0, 1, (0, 0, 0), .BLE⟩]],
           2, [(0, 1, .BLE), (1, 0, .BLE)], 4⟩ := by
  have hdr : (boundaryReflect (1000, 1000, 1000)
        ((bleNode 1 ⟨5, 0, 0, 0⟩ (0, 0, 0) .ACTIVE 100 []).update_position 1)).drain_battery
      ((∑ p ∈ (boundaryReflect (1000, 1000, 1000)
        ((bleNode 1 ⟨5, 0, 0, 0⟩ (0, 0, 0) .ACTIVE 100 []).update_position 1)).protocols,
        Node.BATTERY_DRAIN_RATES p) * 1) g 2 =
      (bleNode 1 ⟨5, 0, 0, 1⟩ (0, 0, 0) .ACTIVE (drainB (g 2)) [], 3) := by
    rw [show boundaryReflect (1000, 1000, 1000)
        ((bleNode 1 ⟨5, 0, 0, 0⟩ (0, 0, 0) .ACTIVE 100 []).update_position 1) =
        bleNode 1 ⟨5, 0, 0, 1⟩ (0, 0, 0) .ACTIVE 100 [] from by decide]
    rw [show (∑ p ∈ (bleNode 1 ⟨5, 0, 0, 1⟩ (0, 0, 0) .ACTIVE 100 []).protocols,
        Node.BATTERY_DRAIN_RATES p) * (1 : ℚ) = 1 / 100 from by decide]
    rw [drain_battery_keep _ _ g 2 (by simp only [bleNode_battery]; nlinarith)]
    rfl
  have hccw : (bleNode 1 ⟨5, 0, 0, 1⟩ (0, 0, 0) .ACTIVE (drainB (g 2)) []).can_communicate_with
      (bleNode 0 ⟨0, 0, 0, 1⟩ (0, 0, 0) .ACTIVE (drainB (g 0)) [⟨1, 1, (5, 0, 0), .BLE⟩])
      .BLE g 3 = (true, 4) := by
    refine ccw_ble_near (bleNode 1 ⟨5, 0, 0, 1⟩ (0, 0, 0) .ACTIVE (drainB (g 2)) [])
      (bleNode 0 ⟨0, 0, 0, 1⟩ (0, 0, 0) .ACTIVE (drainB (g 0)) [⟨1, 1, (5, 0, 0), .BLE⟩])
      g 3 rfl rfl (by simp) (by simp) h30 ?_
    norm_num [bleNode_position, Position.dist2]
  have htry : tryProtocols (bleNode 1 ⟨5, 0, 0, 1⟩ (0, 0, 0) .ACTIVE (drainB (g 2)) [])
      (bleNode 0 ⟨0, 0, 0, 1⟩ (0, 0, 0) .ACTIVE (drainB (g 0)) [⟨1, 1, (5, 0, 0), .BLE⟩])
      g CommunicationType.all 3 = (some .BLE, 4) := by
    simpa using tryProtocols_ble_only
      (bleNode 1 ⟨5, 0, 0, 1⟩ (0, 0, 0) .ACTIVE (drainB (g 2)) [])
      (bleNode 0 ⟨0, 0, 0, 1⟩ (0, 0, 0) .ACTIVE (drainB (g 0)) [⟨1, 1, (5, 0, 0), .BLE⟩])
      g 3 4 true (by simp) (by simp) (by simp) hccw
  have hil : innerLoop 1 g
      ([bleNode 0 ⟨0, 0, 0, 1⟩ (0, 0, 0) .ACTIVE (drainB (g 0)) [⟨1, 1, (5, 0, 0), .BLE⟩],
        bleNode 1 ⟨5, 0, 0, 0⟩ (0, 0, 0) .ACTIVE 100 []].set 1
        (bleNode 1 ⟨5, 0, 0, 1⟩ (0, 0, 0) .ACTIVE (drainB (g 2)) []))
      (bleNode 1 ⟨5, 0, 0, 1⟩ (0, 0, 0) .ACTIVE (drainB (g 2)) []) 3 =
      .ok (bleNode 1 ⟨5, 0, 0, 1⟩ (0, 0, 0) .ACTIVE (drainB (g 2)) [⟨0, 1, (0, 0, 0), .BLE⟩],
        [(1, 0, .BLE)], 4) := by
    rw [show ([bleNode 0 ⟨0, 0, 0, 1⟩ (0, 0, 0) .ACTIVE (drainB (g 0)) [⟨1, 1, (5, 0, 0), .BLE⟩],
        bleNode 1 ⟨5, 0, 0, 0⟩ (0, 0, 0) .ACTIVE 100 []].set 1
        (bleNode 1 ⟨5, 0, 0, 1⟩ (0, 0, 0) .ACTIVE (drainB (g 2)) [])) =
        [bleNode 0 ⟨0, 0, 0, 1⟩ (0, 0, 0) .ACTIVE (drainB (g 0)) [⟨1, 1, (5, 0, 0), .BLE⟩],
         bleNode 1 ⟨5, 0, 0, 1⟩ (0, 0, 0) .ACTIVE (drainB (g 2)) []] from rfl]
    have hrest : innerLoop 1 g [bleNode 1 ⟨5, 0, 0, 1⟩ (0, 0, 0) .ACTIVE (drainB (g 2)) []]
        (bleNode 1 ⟨5, 0, 0, 1⟩ (0, 0, 0) .ACTIVE (drainB (g 2)) [⟨0, 1, (0, 0, 0), .BLE⟩]) 4 =
        .ok (bleNode 1 ⟨5, 0, 0, 1⟩ (0, 0, 0) .ACTIVE (drainB (g 2)) [⟨0, 1, (0, 0, 0), .BLE⟩],
          [], 4) := by
      rw [innerLoop_skip 1 g (bleNode 1 ⟨5, 0, 0, 1⟩ (0, 0, 0) .ACTIVE (drainB (g 2)) []) []
        (bleNode 1 ⟨5, 0, 0, 1⟩ (0, 0, 0) .ACTIVE (drainB (g 2)) [⟨0, 1, (0, 0, 0), .BLE⟩]) 4 rfl]
      exact innerLoop_nil 1 g _ 4
    exact (innerLoop_conn 1 g
      (bleNode 0 ⟨0, 0, 0, 1⟩ (0, 0, 0) .ACTIVE (drainB (g 0)) [⟨1, 1, (5, 0, 0), .BLE⟩])
      [bleNode 1 ⟨5, 0, 0, 1⟩ (0, 0, 0) .ACTIVE (drainB (g 2)) []]
      (bleNode 1 ⟨5, 0, 0, 1⟩ (0, 0, 0) .ACTIVE (drainB (g 2)) [])
      (bleNode 1 ⟨5, 0, 0, 1⟩ (0, 0, 0) .ACTIVE (drainB (g 2)) [⟨0, 1, (0, 0, 0), .BLE⟩])
      (bleNode 1 ⟨5, 0, 0, 1⟩ (0, 0, 0) .ACTIVE (drainB (g 2)) [⟨0, 1, (0, 0, 0), .BLE⟩])
      3 4 4 .BLE [] (by norm_num) htry rfl hrest).trans rfl
  exact (procNode_eval_active (1000, 1000, 1000) 1 1 g _ 1 1 [(0, 1, .BLE)] 2
    (bleNode 1 ⟨5, 0, 0, 0⟩ (0, 0, 0) .ACTIVE 100 []) _ _ _ _ _
    rfl (by decide) hdr rfl hil).trans rfl

/-- One tick of the spec §8 pair scenario, for every legal random stream:
both directed connections `(0,1,BLE)` and `(1,0,BLE)` are reported (the
returned list has two entries), each node logs exactly one encounter with
protocol `BLE`, both nodes stay `ACTIVE`, and the reported connection count
is 2. -/
theorem scenarioPair_step (g : ℕ → ℚ) (hg : ∀ n, 0 ≤ g n ∧ g n < 1) :
    scenarioPair.simulate_step 1 g 0 = .ok
      (⟨[bleNode 0 ⟨0, 0, 0, 1⟩ (0, 0, 0) .ACTIVE (drainB (g 0)) [⟨1, 1, (5, 0, 0), .BLE⟩],
         bleNode 1 ⟨5, 0, 0, 1⟩ (0, 0, 0) .ACTIVE (drainB (g 2)) [⟨0, 1, (0, 0, 0), .BLE⟩]],
        1, (1000, 1000, 1000)⟩,
       ⟨1, 2, 2, min (drainB (g 0)) (drainB (g 2)), (drainB (g 0) + drainB (g 2)) / 2⟩,
       [(0, 1, .BLE), (1, 0, .BLE)], 4) := by
  have h0 := pairStep0 g (hg 0).2 (hg 1).1
  have h1 := pairStep1 g (hg 2).2 (hg 3).1
  have hfold := foldlM_range2 (procNode (1000, 1000, 1000) 1 1 g) _ _ _ h0 h1
  have hstep := simulate_step_eval scenarioPair 1 g 0
    ⟨[bleNode 0 ⟨0, 0, 0, 1⟩ (0, 0, 0) .ACTIVE (drainB (g 0)) [⟨1, 1, (5, 0, 0), .BLE⟩],
      bleNode 1 ⟨5, 0, 0, 1⟩ (0, 0, 0) .ACTIVE (drainB (g 2)) [⟨0, 1, (0, 0, 0), .BLE⟩]],
     2, [(0, 1, .BLE), (1, 0, .BLE)], 4⟩
    (bleNode 0 ⟨0, 0, 0, 1⟩ (0, 0, 0) .ACTIVE (drainB (g 0)) [⟨1, 1, (5, 0, 0), .BLE⟩])
    [bleNode 1 ⟨5, 0, 0, 1⟩ (0, 0, 0) .ACTIVE (drainB (g 2)) [⟨0, 1, (0, 0, 0), .BLE⟩]]
    hfold rfl
  rw [hstep]
  simp only [scenarioPair, bleNode_battery, List.foldl, List.map, List.sum_cons, List.sum_nil,
    List.length_cons, List.length_nil]
  norm_num

/-- Processing node 0 of `scenarioMoving`: node 1 has not moved yet this tick,
so node 0 sees it at pre-motion distance 5 and records the connection
`(0, 1, BLE)` — even though node 1's post-motion position will be at
distance 100. -/
theorem movStep0 (g : ℕ → ℚ) (h01 : g 0 < 1) (h10 : 0 ≤ g 1) :
    procNode (1000, 1000, 1000) 1 1 g ⟨scenarioMoving.nodes, 0, [], 0⟩ 0 =
      .ok ⟨[bleNode 0 ⟨0, 0, 0, 1⟩ (0, 0, 0) .ACTIVE (drainB (g 0)) [⟨1, 1, (5, 0, 0), .BLE⟩],
            bleNode 1 ⟨5, 0, 0, 0⟩ (95, 0, 0) .ACTIVE 100 []],
           1, [(0, 1, .BLE)], 2⟩ := by
  have hdr : (boundaryReflect (1000, 1000, 1000)
        ((bleNode 0 ⟨0, 0, 0, 0⟩ (0, 0, 0) .ACTIVE 100 []).update_position 1)).drain_battery
      ((∑ p ∈ (boundaryReflect (1000, 1000, 1000)
        ((bleNode 0 ⟨0, 0, 0, 0⟩ (0, 0, 0) .ACTIVE 100 []).update_position 1)).protocols,
        Node.BATTERY_DRAIN_RATES p) * 1) g 0 =
      (bleNode 0 ⟨0, 0, 0, 1⟩ (0, 0, 0) .ACTIVE (drainB (g 0)) [], 1) := by
    rw [show boundaryReflect (1000, 1000, 1000)
        ((bleNode 0 ⟨0, 0, 0, 0⟩ (0, 0, 0) .ACTIVE 100 []).update_position 1) =
        bleNode 0 ⟨0, 0, 0, 1⟩ (0, 0, 0) .ACTIVE 100 [] from by decide]
    rw [show (∑ p ∈ (bleNode 0 ⟨0, 0, 0, 1⟩ (0, 0, 0) .ACTIVE 100 []).protocols,
        Node.BATTERY_DRAIN_RATES p) * (1 : ℚ) = 1 / 100 from by decide]
    rw [drain_battery_keep _ _ g 0 (by simp only [bleNode_battery]; nlinarith)]
    rfl
  have hccw : (bleNode 0 ⟨0, 0, 0, 1⟩ (0, 0, 0) .ACTIVE (drainB (g 0)) []).can_communicate_with
      (bleNode 1 ⟨5, 0, 0, 0⟩ (95, 0, 0) .ACTIVE 100 []) .BLE g 1 = (true, 2) := by
    refine ccw_ble_near (bleNode 0 ⟨0, 0, 0, 1⟩ (0, 0, 0) .ACTIVE (drainB (g 0)) [])
      (bleNode 1 ⟨5, 0, 0, 0⟩ (95, 0, 0) .ACTIVE 100 []) g 1 rfl rfl
      (by simp) (by simp) h10 ?_
    norm_num [bleNode_position, Position.dist2]
  have htry : tryProtocols (bleNode 0 ⟨0, 0, 0, 1⟩ (0, 0, 0) .ACTIVE (drainB (g 0)) [])
      (bleNode 1 ⟨5, 0, 0, 0⟩ (95, 0, 0) .ACTIVE 100 []) g CommunicationType.all 1 =
      (some .BLE, 2) := by
    simpa using tryProtocols_ble_only
      (bleNode 0 ⟨0, 0, 0, 1⟩ (0, 0, 0) .ACTIVE (drainB (g 0)) [])
      (bleNode 1 ⟨5, 0, 0, 0⟩ (95, 0, 0) .ACTIVE 100 []) g 1 2 true
      (by simp) (by simp) (by simp) hccw
  have hil : innerLoop 1 g (scenarioMoving.nodes.set 0
        (bleNode 0 ⟨0, 0, 0, 1⟩ (0, 0, 0) .ACTIVE (drainB (g 0)) []))
      (bleNode 0 ⟨0, 0, 0, 1⟩ (0, 0, 0) .ACTIVE (drainB (g 0)) []) 1 =
      .ok (bleNode 0 ⟨0, 0, 0, 1⟩ (0, 0, 0) .ACTIVE (drainB (g 0)) [⟨1, 1, (5, 0, 0), .BLE⟩],
        [(0, 1, .BLE)], 2) := by
    rw [show scenarioMoving.nodes.set 0
        (bleNode 0 ⟨0, 0, 0, 1⟩ (0, 0, 0) .ACTIVE (drainB (g 0)) []) =
        [bleNode 0 ⟨0, 0, 0, 1⟩ (0, 0, 0) .ACTIVE (drainB (g 0)) [],
         bleNode 1 ⟨5, 0, 0, 0⟩ (95, 0, 0) .ACTIVE 100 []] from rfl]
    rw [innerLoop_skip 1 g _ _ _ 1 rfl]
    exact (innerLoop_conn 1 g (bleNode 1 ⟨5, 0, 0, 0⟩ (95, 0, 0) .ACTIVE 100 []) []
      (bleNode 0 ⟨0, 0, 0, 1⟩ (0, 0, 0) .ACTIVE (drainB (g 0)) []) _ _ 1 2 2 .BLE []
      (by norm_num) htry rfl (innerLoop_nil 1 g _ 2)).trans rfl
  exact (procNode_eval_active (1000, 1000, 1000) 1 1 g scenarioMoving.nodes 0 0 [] 0
    (bleNode 0 ⟨0, 0, 0, 0⟩ (0, 0, 0) .ACTIVE 100 []) _ _ _ _ _
    rfl (by decide) hdr rfl hil).trans rfl

/-- Processing node 1 of `scenarioMoving` after node 0's pass: it moves to
`x = 100`, drains, stays `ACTIVE`, and now fails to reach node 0 for every
jitter sample (distance 100 against a maximal effective `BLE` range of 11),
so no reverse connection is recorded. -/
theorem movStep1 (g : ℕ → ℚ) (h21 : g 2 < 1) (h30 : 0 ≤ g 3) (h31 : g 3 < 1) :
    procNode (1000, 1000, 1000) 1 1 g
      ⟨[bleNode 0 ⟨0, 0, 0, 1⟩ (0, 0, 0) .ACTIVE (drainB (g 0)) [⟨1, 1, (5, 0, 0), .BLE⟩],
        bleNode 1 ⟨5, 0, 0, 0⟩ (95, 0, 0) .ACTIVE 100 []],
       1, [(0, 1, .BLE)], 2⟩ 1 =
      .ok ⟨[bleNode 0 ⟨0, 0, 0, 1⟩ (0, 0, 0) .ACTIVE (drainB (g 0)) [⟨1, 1, (5, 0, 0), .BLE⟩],
            bleNode 1 ⟨100, 0, 0, 1⟩ (95, 0, 0) .ACTIVE (drainB (g 2)) []],
           2, [(0, 1, .BLE)], 4⟩ := by
  have hdr : (boundaryReflect (1000, 1000, 1000)
        ((bleNode 1 ⟨5, 0, 0, 0⟩ (95, 0, 0) .ACTIVE 100 []).update_position 1)).drain_battery
      ((∑ p ∈ (boundaryReflect (1000, 1000, 1000)
        ((bleNode 1 ⟨5, 0, 0, 0⟩ (95, 0, 0) .ACTIVE 100 []).update_position 1)).protocols,
        Node.BATTERY_DRAIN_RATES p) * 1) g 2 =
      (bleNode 1 ⟨100, 0, 0, 1⟩ (95, 0, 0) .ACTIVE (drainB (g 2)) [], 3) := by
    rw [show boundaryReflect (1000, 1000, 1000)
        ((bleNode 1 ⟨5, 0, 0, 0⟩ (95, 0, 0) .ACTIVE 100 []).update_position 1) =
        bleNode 1 ⟨100, 0, 0, 1⟩ (95, 0, 0) .ACTIVE 100 [] from by decide]
    rw [show (∑ p ∈ (bleNode 1 ⟨100, 0, 0, 1⟩ (95, 0, 0) .ACTIVE 100 []).protocols,
        Node.BATTERY_DRAIN_RATES p) * (1 : ℚ) = 1 / 100 from by decide]
    rw [drain_battery_keep _ _ g 2 (by simp only [bleNode_battery]; nlinarith)]
    rfl
  have hccw : (bleNode 1 ⟨100, 0, 0, 1⟩ (95, 0, 0) .ACTIVE (drainB (g 2)) []).can_communicate_with
      (bleNode 0 ⟨0, 0, 0, 1⟩ (0, 0, 0) .ACTIVE (drainB (g 0)) [⟨1, 1, (5, 0, 0), .BLE⟩])
      .BLE g 3 = (false, 4) := by
    refine ccw_far (bleNode 1 ⟨100, 0, 0, 1⟩ (95, 0, 0) .ACTIVE (drainB (g 2)) [])
      (bleNode 0 ⟨0, 0, 0, 1⟩ (0, 0, 0) .ACTIVE (drainB (g 0)) [⟨1, 1, (5, 0, 0), .BLE⟩])
      .BLE 10 g 3 rfl rfl (by simp) (by simp) rfl (by norm_num) h30 h31 ?_
    norm_num [bleNode_position, Position.dist2]
  have htry : tryProtocols (bleNode 1 ⟨100, 0, 0, 1⟩ (95, 0, 0) .ACTIVE (drainB (g 2)) [])
      (bleNode 0 ⟨0, 0, 0, 1⟩ (0, 0, 0) .ACTIVE (drainB (g 0)) [⟨1, 1, (5, 0, 0), .BLE⟩])
      g CommunicationType.all 3 = (none, 4) := by
    simpa using tryProtocols_ble_only
      (bleNode 1 ⟨100, 0, 0, 1⟩ (95, 0, 0) .ACTIVE (drainB (g 2)) [])
      (bleNode 0 ⟨0, 0, 0, 1⟩ (0, 0, 0) .ACTIVE (drainB (g 0)) [⟨1, 1, (5, 0, 0), .BLE⟩])
      g 3 4 false (by simp) (by simp) (by simp) hccw
  have hil : innerLoop 1 g
      ([bleNode 0 ⟨0, 0, 0, 1⟩ (0, 0, 0) .ACTIVE (drainB (g 0)) [⟨1, 1, (5, 0, 0), .BLE⟩],
        bleNode 1 ⟨5, 0, 0, 0⟩ (95, 0, 0) .ACTIVE 100 []].set 1
        (bleNode 1 ⟨100, 0, 0, 1⟩ (95, 0, 0) .ACTIVE (drainB (g 2)) []))
      (bleNode 1 ⟨100, 0, 0, 1⟩ (95, 0, 0) .ACTIVE (drainB (g 2)) []) 3 =
      .ok (bleNode 1 ⟨100, 0, 0, 1⟩ (95, 0, 0) .ACTIVE (drainB (g 2)) [], [], 4) := by
    rw [show ([bleNode 0 ⟨0, 0, 0, 1⟩ (0, 0, 0) .ACTIVE (drainB (g 0)) [⟨1, 1, (5, 0, 0), .BLE⟩],
        bleNode 1 ⟨5, 0, 0, 0⟩ (95, 0, 0) .ACTIVE 100 []].set 1
        (bleNode 1 ⟨100, 0, 0, 1⟩ (95, 0, 0) .ACTIVE (drainB (g 2)) [])) =
        [bleNode 0 ⟨0, 0, 0, 1⟩ (0, 0, 0) .ACTIVE (drainB (g 0)) [⟨1, 1, (5, 0, 0), .BLE⟩],
         bleNode 1 ⟨100, 0, 0, 1⟩ (95, 0, 0) .ACTIVE (drainB (g 2)) []] from rfl]
    rw [innerLoop_noconn 1 g
      (bleNode 0 ⟨0, 0, 0, 1⟩ (0, 0, 0) .ACTIVE (drainB (g 0)) [⟨1, 1, (5, 0, 0), .BLE⟩])
      [bleNode 1 ⟨100, 0, 0, 1⟩ (95, 0, 0) .ACTIVE (drainB (g 2)) []]
      (bleNode 1 ⟨100, 0, 0, 1⟩ (95, 0, 0) .ACTIVE (drainB (g 2)) []) 3 4
      (by norm_num) htry]
    rw [innerLoop_skip 1 g (bleNode 1 ⟨100, 0, 0, 1⟩ (95, 0, 0) .ACTIVE (drainB (g 2)) []) []
      (bleNode 1 ⟨100, 0, 0, 1⟩ (95, 0, 0) .ACTIVE (drainB (g 2)) []) 4 rfl]
    exact innerLoop_nil 1 g _ 4
  exact (procNode_eval_active (1000, 1000, 1000) 1 1 g _ 1 1 [(0, 1, .BLE)] 2
    (bleNode 1 ⟨5, 0, 0, 0⟩ (95, 0, 0) .ACTIVE 100 []) _ _ _ _ _
    rfl (by decide) hdr rfl hil).trans rfl

/-- One tick of `scenarioMoving`, for every legal random stream: the fused
loop reports exactly the single connection `(0, 1, BLE)`, established from
node 1's *pre-motion* position (the logged encounter snapshot is `(5,0,0)`),
although node 1 finishes the tick at `(100, 0, 0)`, outside every possible
effective `BLE` range of node 0. -/
theorem scenarioMoving_step (g : ℕ → ℚ) (hg : ∀ n, 0 ≤ g n ∧ g n < 1) :
    scenarioMoving.simulate_step 1 g 0 = .ok
      (⟨[bleNode 0 ⟨0, 0, 0, 1⟩ (0, 0, 0) .ACTIVE (drainB (g 0)) [⟨1, 1, (5, 0, 0), .BLE⟩],
         bleNode 1 ⟨100, 0, 0, 1⟩ (95, 0, 0) .ACTIVE (drainB (g 2)) []],
        1, (1000, 1000, 1000)⟩,
       ⟨1, 2, 1, min (drainB (g 0)) (drainB (g 2)), (drainB (g 0) + drainB (g 2)) / 2⟩,
       [(0, 1, .BLE)], 4) := by
  have h0 := movStep0 g (hg 0).2 (hg 1).1
  have h1 := movStep1 g (hg 2).2 (hg 3).1 (hg 3).2
  have hfold := foldlM_range2 (procNode (1000, 1000, 1000) 1 1 g) _ _ _ h0 h1
  have hstep := simulate_step_eval scenarioMoving 1 g 0
    ⟨[bleNode 0 ⟨0, 0, 0, 1⟩ (0, 0, 0) .ACTIVE (drainB (g 0)) [⟨1, 1, (5, 0, 0), .BLE⟩],
      bleNode 1 ⟨100, 0, 0, 1⟩ (95, 0, 0) .ACTIVE (drainB (g 2)) []],
     2, [(0, 1, .BLE)], 4⟩
    (bleNode 0 ⟨0, 0, 0, 1⟩ (0, 0, 0) .ACTIVE (drainB (g 0)) [⟨1, 1, (5, 0, 0), .BLE⟩])
    [bleNode 1 ⟨100, 0, 0, 1⟩ (95, 0, 0) .ACTIVE (drainB (g 2)) []]
    hfold rfl
  rw [hstep]
  simp only [scenarioMoving, bleNode_battery, List.foldl, List.map, List.sum_cons, List.sum_nil,
    List.length_cons, List.length_nil]
  norm_num

/-- C1: the claim says a tick over an empty roster completes without error
with a defined battery summary.  The code instead crashes: the metrics line
computes `min(n.battery_level for n in self.nodes)` over the empty roster,
raising `ValueError` (and the average would divide by zero) — for every
bounds, start time, `dt` and random stream.  This theorem evaluates the
embedded `simulate_step` at that failing input. -/
theorem C1_empty_roster_tick_raises (bounds : ℚ × ℚ × ℚ) (t dt : ℚ) (g : ℕ → ℚ) (k : ℕ) :
    NetworkMesh.simulate_step ⟨[], t, bounds⟩ dt g k =
      .error "min() arg is an empty sequence" := rfl

/-- C4: the claim says the reported active-node count equals the number of
`ACTIVE` nodes in the roster after the motion/drain phase.  The code instead
*decrements* the running counter for every non-`OFFLINE`, non-`ACTIVE` node
(`elif active_nodes > 0: active_nodes -= 1`).  With one `ACTIVE` and one
`INTERMITTENT` node (`scenarioMixed`, all-zeros stream) the tick reports 0
active nodes while the post-drain roster holds exactly 1 `ACTIVE` node. -/
theorem C4_reported_active_count_mismatch :
    reportedActive (scenarioMixed.simulate_step 1 gzero 0) = some 0 ∧
      activeCount (rosterOf (scenarioMixed.simulate_step 1 gzero 0)) = 1 := by decide

/-- C9: the claim says invalid configuration (non-positive bounds, empty
protocol set, negative `dt` or tick count) is rejected at construction time
with a descriptive error.  The code performs no validation anywhere: the
constructor stores negative bounds verbatim, and a tick with `dt = -1` over
those bounds completes successfully — even *charging* the battery above 100
(to `12501/125 = 100.008`). -/
theorem C9_invalid_config_accepted :
    NetworkMesh.init (-1, -1, -1) = ⟨[], 0, (-1, -1, -1)⟩ ∧
      stepOk (scenarioBadBounds.simulate_step (-1) gzero 0) = true ∧
      (rosterOf (scenarioBadBounds.simulate_step (-1) gzero 0)).map Node.battery_level =
        [12501 / 125] := by
  refine ⟨rfl, ?_, ?_⟩ <;> decide

/-- C6: `can_communicate_with` returns `False` whenever the protocol is not in
both nodes' protocol sets or either node is `OFFLINE` — for every node pair,
protocol, random stream and counter position. -/
theorem C6_guard_prevents_communication (a b : Node) (p : CommunicationType)
    (g : ℕ → ℚ) (k : ℕ)
    (h : ¬(p ∈ a.protocols ∧ p ∈ b.protocols) ∨ a.state = .OFFLINE ∨ b.state = .OFFLINE) :
    (a.can_communicate_with b p g k).1 = false := by
  have h2 : p ∉ a.protocols ∨ p ∉ b.protocols ∨ a.state = .OFFLINE ∨ b.state = .OFFLINE := by
    rcases h with h | h | h
    · rcases not_and_or.mp h with h | h
      · exact Or.inl h
      · exact Or.inr (Or.inl h)
    · exact Or.inr (Or.inr (Or.inl h))
    · exact Or.inr (Or.inr (Or.inr h))
  rw [ccw_guard a b p g k h2]

/-- Witness for C6: a `BLE`-only pair can never talk over `WIFI`. -/
theorem C6_guard_prevents_communication_witness :
    ((bleNode 0 ⟨0, 0, 0, 0⟩ (0, 0, 0) .ACTIVE 100 []).can_communicate_with
      (bleNode 1 ⟨1, 0, 0, 0⟩ (0, 0, 0) .ACTIVE 100 []) .WIFI gzero 0).1 = false :=
  C6_guard_prevents_communication _ _ _ gzero 0 (Or.inl (by decide))

/-- Counterexample to C3 as stated: in the spec's own two-node `BLE` scenario
(distance 5, zero velocity, full batteries, all-zeros random stream) the tick
does not report exactly 1 connection — it reports 2, namely the two directed
records `(0,1,BLE)` and `(1,0,BLE)`. -/
theorem C3_pair_scenario_reports_two_cex :
    reportedConnections (scenarioPair.simulate_step 1 gzero 0) ≠ some 1 ∧
      reportedConnections (scenarioPair.simulate_step 1 gzero 0) = some 2 ∧
      connsOf (scenarioPair.simulate_step 1 gzero 0) = [(0, 1, .BLE), (1, 0, .BLE)] := by
  refine ⟨?_, ?_, ?_⟩ <;> decide

/-- C3 (amended): in the two-node `BLE` scenario at distance 5, one tick
reports exactly 2 connection records — the two directions `(0,1,BLE)` and
`(1,0,BLE)` of the single undirected link — regardless of the random jitter
samples drawn, and each initiator logs exactly one `BLE` encounter. -/
theorem C3_pair_scenario_two_directed_connections (g : ℕ → ℚ)
    (hg : ∀ n, 0 ≤ g n ∧ g n < 1) :
    ∃ m1 rep, scenarioPair.simulate_step 1 g 0 =
        .ok (m1, rep, [(0, 1, .BLE), (1, 0, .BLE)], 4) ∧
      rep.connections = 2 ∧ rep.active_nodes = 2 ∧
      m1.nodes.map (fun n => n.memory_encounters.map Encounter.protocol) =
        [[.BLE], [.BLE]] :=
  ⟨_, _, scenarioPair_step g hg, rfl, rfl, rfl⟩

/-- Witness for C3's amended theorem at the all-zeros stream. -/
theorem C3_pair_scenario_two_directed_connections_witness :
    ∃ m1 rep, scenarioPair.simulate_step 1 gzero 0 =
        .ok (m1, rep, [(0, 1, .BLE), (1, 0, .BLE)], 4) ∧
      rep.connections = 2 ∧ rep.active_nodes = 2 ∧
      m1.nodes.map (fun n => n.memory_encounters.map Encounter.protocol) =
        [[.BLE], [.BLE]] :=
  C3_pair_scenario_two_directed_connections gzero (fun _ => ⟨le_refl 0, by norm_num [gzero]⟩)

/-- Counterexample to C2 as stated: with node 1 moving from distance 5 to
distance 100 in this tick (`scenarioMoving`, all-zeros stream), the fused
loop still records `(0,1,BLE)` — node 0 evaluated connectivity against
node 1's *pre-motion* position — while under the spec's barrier reading
(all of step 2 before step 3, `simulate_step_barrier`) the same tick records
no connection at all. -/
theorem C2_fused_differs_from_barrier_cex :
    connsOf (scenarioMoving.simulate_step 1 gzero 0) = [(0, 1, .BLE)] ∧
      connsOfBarrier (scenarioMoving.simulate_step_barrier 1 gzero 0) = [] ∧
      connsOf (scenarioMoving.simulate_step 1 gzero 0) ≠
        connsOfBarrier (scenarioMoving.simulate_step_barrier 1 gzero 0) := by
  refine ⟨?_, ?_, ?_⟩ <;> decide

/-- C2 (amended): `simulate_step` interleaves motion/boundary/drain with
connectivity per node in roster order — there is no barrier between the
spec's steps 2 and 3, and a node's connectivity evaluations observe
later-indexed peers' previous-tick (pre-motion, pre-drain) state.  In
`scenarioMoving`, for every legal random stream, node 0 connects to node 1
via node 1's pre-motion position (encounter snapshot `(5,0,0)`), although
node 1 ends the tick at `(100,0,0)`, outside every effective `BLE` range. -/
theorem C2_motion_connectivity_interleaved (g : ℕ → ℚ) (hg : ∀ n, 0 ≤ g n ∧ g n < 1) :
    ∃ m1 rep, scenarioMoving.simulate_step 1 g 0 = .ok (m1, rep, [(0, 1, .BLE)], 4) ∧
      m1.nodes.map Node.position = [⟨0, 0, 0, 1⟩, ⟨100, 0, 0, 1⟩] ∧
      m1.nodes.map Node.memory_encounters = [[⟨1, 1, (5, 0, 0), .BLE⟩], []] :=
  ⟨_, _, scenarioMoving_step g hg, rfl, rfl⟩

/-- Witness for C2's amended theorem at the all-zeros stream. -/
theorem C2_motion_connectivity_interleaved_witness :
    ∃ m1 rep, scenarioMoving.simulate_step 1 gzero 0 = .ok (m1, rep, [(0, 1, .BLE)], 4) ∧
      m1.nodes.map Node.position = [⟨0, 0, 0, 1⟩, ⟨100, 0, 0, 1⟩] ∧
      m1.nodes.map Node.memory_encounters = [[⟨1, 1, (5, 0, 0), .BLE⟩], []] :=
  C2_motion_connectivity_interleaved gzero (fun _ => ⟨le_refl 0, by norm_num [gzero]⟩)

/-- C7: two `ACTIVE` nodes both supporting a protocol `p` of finite nominal
range `R`, at Euclidean distance greater than `1.1 × R`, can never
communicate over `p`: the jitter factor `0.9 + 0.2·r` stays below `1.1` for
every sample `r ∈ [0, 1)`.  (For `GPS` the nominal range is infinite, so no
distance exceeds `1.1 ×` it and the claim is vacuous there.) -/
theorem C7_out_of_range_never_communicates (a b : Node) (p : CommunicationType) (R : ℚ)
    (g : ℕ → ℚ) (k : ℕ)
    (ha : a.state = .ACTIVE) (hb : b.state = .ACTIVE)
    (hpa : p ∈ a.protocols) (hpb : p ∈ b.protocols)
    (hR : Node.PROTOCOL_RANGES p = some R)
    (hg0 : 0 ≤ g k) (hg1 : g k < 1)
    (hd : ((11 / 10 * R : ℚ) : ℝ) < a.position.distance_to b.position) :
    (a.can_communicate_with b p g k).1 = false := by
  have hR0 : (0 : ℚ) ≤ R := by
    cases p
    · rw [show Node.PROTOCOL_RANGES .BLE = some 10 from rfl] at hR
      injection hR with hR
      rw [← hR]; norm_num
    · rw [show Node.PROTOCOL_RANGES .WIFI = some 100 from rfl] at hR
      injection hR with hR
      rw [← hR]; norm_num
    · exact absurd hR (by rw [show Node.PROTOCOL_RANGES .GPS = none from rfl]; simp)
    · rw [show Node.PROTOCOL_RANGES .CUSTOM = some 50 from rfl] at hR
      injection hR with hR
      rw [← hR]; norm_num
  have hx : (0 : ℝ) ≤ ((11 / 10 * R : ℚ) : ℝ) := by
    have : (0 : ℚ) ≤ 11 / 10 * R := by nlinarith
    exact_mod_cast this
  have hd' : ((11 / 10 * R : ℚ) : ℝ) < Real.sqrt ((a.position.dist2 b.position : ℚ) : ℝ) := hd
  have h2 : ((11 / 10 * R : ℚ) : ℝ) ^ 2 < ((a.position.dist2 b.position : ℚ) : ℝ) :=
    (Real.lt_sqrt hx).mp hd'
  have hd2 : (11 / 10 * R) ^ 2 < a.position.dist2 b.position := by exact_mod_cast h2
  rw [ccw_far a b p R g k ha hb hpa hpb hR hR0 hg0 hg1 hd2]

/-- Witness for C7: `BLE` at distance 500 (`> 1.1 × 10 = 11`) fails. -/
theorem C7_out_of_range_never_communicates_witness :
    ((bleNode 0 ⟨0, 0, 0, 0⟩ (0, 0, 0) .ACTIVE 100 []).can_communicate_with
      (bleNode 1 ⟨500, 0, 0, 0⟩ (0, 0, 0) .ACTIVE 100 []) .BLE gzero 0).1 = false := by
  refine C7_out_of_range_never_communicates _ _ .BLE 10 gzero 0 rfl rfl
    (by decide) (by decide) rfl (le_refl 0) (by norm_num [gzero]) ?_
  have hdist : (bleNode 0 ⟨0, 0, 0, 0⟩ (0, 0, 0) .ACTIVE 100 []).position.distance_to
      (bleNode 1 ⟨500, 0, 0, 0⟩ (0, 0, 0) .ACTIVE 100 []).position = 500 := by
    unfold Position.distance_to
    rw [show (((bleNode 0 ⟨0, 0, 0, 0⟩ (0, 0, 0) .ACTIVE 100 []).position.dist2
      (bleNode 1 ⟨500, 0, 0, 0⟩ (0, 0, 0) .ACTIVE 100 []).position : ℚ) : ℝ) = (500 : ℝ) ^ 2
      from by norm_num [bleNode, Position.dist2]]
    exact Real.sqrt_sq (by norm_num)
  rw [hdist]
  norm_num

theorem except_error_bind {α β : Type} (e : String) (f : α → Except String β) :
    (Except.error e >>= f : Except String β) = .error e := rfl

/-- Inversion of a successful `foldlM` step in the `Except` monad. -/
theorem foldlM_ok_cons (f : SimState → ℕ → Except String SimState) (b : SimState)
    (x : ℕ) (xs : List ℕ) (r : SimState)
    (h : (x :: xs).foldlM f b = .ok r) :
    ∃ mid, f b x = .ok mid ∧ xs.foldlM f mid = .ok r := by
  rw [List.foldlM_cons] at h
  cases hfx : f b x with
  | error e =>
    rw [hfx, except_error_bind] at h
    cases h
  | ok mid =>
    rw [hfx, except_ok_bind] at h
    exact ⟨mid, rfl, h⟩

theorem foldlM_nil_ok (f : SimState → ℕ → Except String SimState) (b r : SimState)
    (h : ([] : List ℕ).foldlM f b = .ok r) : b = r := by
  rw [List.foldlM_nil] at h
  cases h
  rfl

@[simp] theorem update_position_id (n : Node) (dt : ℚ) : (n.update_position dt).id = n.id := rfl

@[simp] theorem update_position_protocols (n : Node) (dt : ℚ) :
    (n.update_position dt).protocols = n.protocols := rfl

@[simp] theorem reflectOnce_id (bounds : ℚ × ℚ × ℚ) (n : Node) :
    (reflectOnce bounds n).id = n.id := by
  simp only [reflectOnce]
  split <;> (try dsimp only) <;> split <;> (try dsimp only) <;> split <;> rfl

@[simp] theorem boundaryReflect_id (bounds : ℚ × ℚ × ℚ) (n : Node) :
    (boundaryReflect bounds n).id = n.id := by
  simp only [boundaryReflect, reflectOnce_id]

@[simp] theorem drain_battery_id (n : Node) (amount : ℚ) (g : ℕ → ℚ) (k : ℕ) :
    ((n.drain_battery amount g k).1).id = n.id := by
  simp only [Node.drain_battery]
  split
  · rfl
  · split
    · split <;> rfl
    · rfl

/-- Inversion for `innerLoop`: the returned node is the input node with only
its encounter log grown (same id); every contributed connection has the
initiating node as source; and the targets form a sublist (in order, without
repetition) of the peer list's ids — so each peer contributes at most one
connection. -/
theorem innerLoop_inv (time : ℚ) (g : ℕ → ℚ) :
    ∀ (others : List Node) (node : Node) (k : ℕ) (node' : Node) (cs : List Conn) (k' : ℕ),
      innerLoop time g others node k = .ok (node', cs, k') →
      node'.id = node.id ∧ (∀ c ∈ cs, c.1 = node.id) ∧
        List.Sublist (cs.map (fun c => c.2.1)) (others.map Node.id) := by
  intro others
  induction others with
  | nil =>
    intro node k node' cs k' h
    rw [innerLoop_nil] at h
    simp only [Except.ok.injEq, Prod.mk.injEq] at h
    obtain ⟨h1, h2, h3⟩ := h
    subst h1
    subst h3
    rw [← h2]
    exact ⟨rfl, by simp, by simp⟩
  | cons other rest ih =>
    intro node k node' cs k' h
    by_cases hid : node.id = other.id
    · rw [innerLoop_skip time g other rest node k hid] at h
      obtain ⟨h1, h2, h3⟩ := ih node k node' cs k' h
      exact ⟨h1, h2, h3.cons _⟩
    · cases htp : tryProtocols node other g CommunicationType.all k with
      | mk o k1 =>
        cases o with
        | none =>
          rw [innerLoop_noconn time g other rest node k k1 hid htp] at h
          obtain ⟨h1, h2, h3⟩ := ih node k1 node' cs k' h
          exact ⟨h1, h2, h3.cons _⟩
        | some p =>
          simp only [innerLoop] at h
          rw [if_neg hid, htp] at h
          dsimp only at h
          cases hst : node.store_encounter other time with
          | none =>
            rw [hst] at h
            cases h
          | some node1 =>
            rw [hst] at h
            dsimp only at h
            cases hrest : innerLoop time g rest node1 k1 with
            | error e =>
              rw [hrest] at h
              cases h
            | ok trip =>
              obtain ⟨node2, cs2, k2⟩ := trip
              rw [hrest] at h
              dsimp only at h
              simp only [Except.ok.injEq, Prod.mk.injEq] at h
              obtain ⟨h1, h2, h3⟩ := h
              subst h1
              subst h3
              obtain ⟨i1, i2, i3⟩ := ih node1 k1 node2 cs2 k2 hrest
              have hfr := (store_encounter_frame node other time node1 hst).1
              refine ⟨i1.trans hfr, ?_, ?_⟩
              · intro c hc
                rw [← h2] at hc
                rcases List.mem_cons.mp hc with hc | hc
                · rw [hc]
                · exact (i2 c hc).trans hfr
              · rw [← h2]
                simp only [List.map_cons]
                exact i3.cons₂ _

/-- Inversion for `procNode`: a successful call either leaves the state
untouched (missing index or `OFFLINE` node), or it processed the node at
index `i`: the roster changes only at index `i` (to nodes keeping the
original id), connections grow by a batch whose sources are all the processed
node's id and whose targets form a sublist of the roster's ids. -/
theorem procNode_inv (bounds : ℚ × ℚ × ℚ) (time dt : ℚ) (g : ℕ → ℚ)
    (st st' : SimState) (i : ℕ)
    (h : procNode bounds time dt g st i = .ok st') :
    st' = st ∨
    ∃ node0 node3 node4 cs,
      st.nodes[i]? = some node0 ∧ ¬node0.state = .OFFLINE ∧
      node3.id = node0.id ∧ node4.id = node0.id ∧
      st'.nodes = (st.nodes.set i node3).set i node4 ∧
      st'.conns = st.conns ++ cs ∧
      (∀ c ∈ cs, c.1 = node0.id) ∧
      List.Sublist (cs.map (fun c => c.2.1)) ((st.nodes.set i node3).map Node.id) := by
  cases h0 : st.nodes[i]? with
  | none =>
    left
    simp only [procNode, h0] at h
    simp only [Except.ok.injEq] at h
    exact h.symm
  | some node0 =>
    by_cases hoff : node0.state = .OFFLINE
    · left
      rw [procNode_eval_offline bounds time dt g st i node0 h0 hoff] at h
      simp only [Except.ok.injEq] at h
      exact h.symm
    · right
      simp only [procNode, h0] at h
      rw [if_neg hoff] at h
      by_cases hact : ((boundaryReflect bounds (node0.update_position dt)).drain_battery
          ((∑ p ∈ (boundaryReflect bounds (node0.update_position dt)).protocols,
            Node.BATTERY_DRAIN_RATES p) * dt) g st.k).1.state = .ACTIVE
      · rw [if_pos hact] at h
        cases hil : innerLoop time g
            (st.nodes.set i ((boundaryReflect bounds (node0.update_position dt)).drain_battery
              ((∑ p ∈ (boundaryReflect bounds (node0.update_position dt)).protocols,
                Node.BATTERY_DRAIN_RATES p) * dt) g st.k).1)
            ((boundaryReflect bounds (node0.update_position dt)).drain_battery
              ((∑ p ∈ (boundaryReflect bounds (node0.update_position dt)).protocols,
                Node.BATTERY_DRAIN_RATES p) * dt) g st.k).1
            ((boundaryReflect bounds (node0.update_position dt)).drain_battery
              ((∑ p ∈ (boundaryReflect bounds (node0.update_position dt)).protocols,
                Node.BATTERY_DRAIN_RATES p) * dt) g st.k).2 with
        | error e =>
          rw [hil] at h
          cases h
        | ok trip =>
          obtain ⟨node4, cs, k2⟩ := trip
          rw [hil] at h
          dsimp only at h
          simp only [Except.ok.injEq] at h
          obtain ⟨i1, i2, i3⟩ := innerLoop_inv time g _ _ _ _ _ _ hil
          have hid3 : ((boundaryReflect bounds (node0.update_position dt)).drain_battery
              ((∑ p ∈ (boundaryReflect bounds (node0.update_position dt)).protocols,
                Node.BATTERY_DRAIN_RATES p) * dt) g st.k).1.id = node0.id := by
            simp
          refine ⟨node0, _, node4, cs, rfl, hoff, hid3, i1.trans hid3, ?_, ?_, ?_, i3⟩
          · rw [← h]
          · rw [← h]
          · intro c hc
            exact (i2 c hc).trans hid3
      · rw [if_neg hact] at h
        simp only [Except.ok.injEq] at h
        have hid3 : ((boundaryReflect bounds (node0.update_position dt)).drain_battery
            ((∑ p ∈ (boundaryReflect bounds (node0.update_position dt)).protocols,
              Node.BATTERY_DRAIN_RATES p) * dt) g st.k).1.id = node0.id := by
          simp
        refine ⟨node0, _, _, [], rfl, hoff, hid3, hid3, ?_, ?_, by simp, by simp⟩
        · rw [← h]
          dsimp only
          rw [List.set_set]
        · rw [← h]
          dsimp only
          rw [List.append_nil]

/-- One `procNode` call never touches a roster entry holding an `OFFLINE`
node: its own index is skipped, and other indices are not written. -/
theorem procNode_preserves_offline (bounds : ℚ × ℚ × ℚ) (time dt : ℚ) (g : ℕ → ℚ)
    (st st' : SimState) (i : ℕ)
    (h : procNode bounds time dt g st i = .ok st')
    (j : ℕ) (node : Node) (hj : st.nodes[j]? = some node) (hoff : node.state = .OFFLINE) :
    st'.nodes[j]? = some node := by
  rcases procNode_inv bounds time dt g st st' i h with heq |
    ⟨node0, n3, n4, cs, h0, hoff0, _, _, hn, _, _, _⟩
  · rw [heq]
    exact hj
  · by_cases hij : i = j
    · subst hij
      rw [h0] at hj
      injection hj with hj
      exact absurd (by rw [hj]; exact hoff) hoff0
    · rw [hn, List.getElem?_set_ne hij, List.getElem?_set_ne hij]
      exact hj

/-- The whole roster fold preserves `OFFLINE` entries verbatim. -/
theorem fold_preserves_offline (bounds : ℚ × ℚ × ℚ) (time dt : ℚ) (g : ℕ → ℚ) :
    ∀ (L : List ℕ) (st st' : SimState),
      L.foldlM (procNode bounds time dt g) st = .ok st' →
      ∀ (j : ℕ) (node : Node), st.nodes[j]? = some node → node.state = .OFFLINE →
        st'.nodes[j]? = some node := by
  intro L
  induction L with
  | nil =>
    intro st st' h j node hj hoff
    rw [← foldlM_nil_ok _ _ _ h]
    exact hj
  | cons x xs ih =>
    intro st st' h j node hj hoff
    obtain ⟨mid, h1, h2⟩ := foldlM_ok_cons _ _ _ _ _ h
    exact ih mid st' h2 j node
      (procNode_preserves_offline bounds time dt g st mid x h1 j node hj hoff) hoff

/-- Inversion of a successful tick: it comes from a successful roster fold,
whose final state supplies the returned roster, connections and counter. -/
theorem simulate_step_inv (m : NetworkMesh) (dt : ℚ) (g : ℕ → ℚ) (k : ℕ)
    (m1 : NetworkMesh) (rep : StepReport) (cs : List Conn) (k1 : ℕ)
    (h : m.simulate_step dt g k = .ok (m1, rep, cs, k1)) :
    ∃ st : SimState,
      (List.range m.nodes.length).foldlM (procNode m.bounds (m.time + dt) dt g)
        ⟨m.nodes, 0, [], k⟩ = .ok st ∧
      m1.nodes = st.nodes ∧ cs = st.conns ∧ rep.active_nodes = st.active := by
  simp only [NetworkMesh.simulate_step] at h
  cases hf : (List.range m.nodes.length).foldlM (procNode m.bounds (m.time + dt) dt g)
      ⟨m.nodes, 0, [], k⟩ with
  | error e =>
    rw [hf] at h
    cases h
  | ok st =>
    rw [hf] at h
    dsimp only at h
    cases hn : st.nodes with
    | nil =>
      rw [hn] at h
      cases h
    | cons n0 rest =>
      rw [hn] at h
      dsimp only at h
      simp only [Except.ok.injEq, Prod.mk.injEq] at h
      obtain ⟨hm, hrep, hcs, hk⟩ := h
      refine ⟨st, rfl, ?_, ?_, ?_⟩
      · rw [← hm, hn]
      · rw [← hcs]
      · rw [← hrep]

/-- C5: (i) `drain_battery` never leaves a negative battery (clamp at 0, for
any drain amount and any jitter sample); (ii) if a drain leaves the battery
at exactly 0, that same drain set the state to `OFFLINE`; (iii) `OFFLINE` is
absorbing: a node that enters a tick `OFFLINE` is returned by `simulate_step`
with its entire record — state, position, velocity, battery, log — unchanged,
at the same roster index. -/
theorem C5_battery_clamped_offline_absorbing :
    (∀ (n : Node) (amount : ℚ) (g : ℕ → ℚ) (k : ℕ),
      0 ≤ (n.drain_battery amount g k).1.battery_level) ∧
    (∀ (n : Node) (amount : ℚ) (g : ℕ → ℚ) (k : ℕ),
      (n.drain_battery amount g k).1.battery_level = 0 →
      (n.drain_battery amount g k).1.state = .OFFLINE) ∧
    (∀ (m : NetworkMesh) (dt : ℚ) (g : ℕ → ℚ) (k : ℕ) (m1 : NetworkMesh) (rep : StepReport)
      (cs : List Conn) (k1 : ℕ),
      m.simulate_step dt g k = .ok (m1, rep, cs, k1) →
      ∀ (j : ℕ) (node : Node), m.nodes[j]? = some node → node.state = .OFFLINE →
        m1.nodes[j]? = some node) := by
  refine ⟨drain_battery_nonneg, drain_battery_zero_offline, ?_⟩
  intro m dt g k m1 rep cs k1 h j node hj hoff
  obtain ⟨st, hf, hm, _, _⟩ := simulate_step_inv m dt g k m1 rep cs k1 h
  rw [hm]
  exact fold_preserves_offline m.bounds (m.time + dt) dt g _ _ _ hf j node hj hoff

/-- Witness for C5 at concrete inputs: a huge drain clamps at 0 and turns the
node `OFFLINE`; and the exhausted `OFFLINE` node of `scenarioOffline`
survives a tick untouched. -/
theorem C5_battery_clamped_offline_absorbing_witness :
    0 ≤ ((bleNode 0 ⟨0, 0, 0, 0⟩ (0, 0, 0) .ACTIVE 5 []).drain_battery 1000 gzero 0).1.battery_level ∧
    ((bleNode 0 ⟨0, 0, 0, 0⟩ (0, 0, 0) .ACTIVE 5 []).drain_battery 1000 gzero 0).1.state =
      NodeState.OFFLINE ∧
    (rosterOf (scenarioOffline.simulate_step 1 gzero 0))[0]? =
      some (bleNode 7 ⟨1, 2, 3, 4⟩ (1, 1, 1) .OFFLINE 0 []) := by
  have hstep : scenarioOffline.simulate_step 1 gzero 0 =
      .ok (⟨[bleNode 7 ⟨1, 2, 3, 4⟩ (1, 1, 1) .OFFLINE 0 []], 1, (1000, 1000, 1000)⟩,
        ⟨1, 0, 0, 0, 0⟩, [], 0) := by rfl
  refine ⟨C5_battery_clamped_offline_absorbing.1 _ 1000 gzero 0,
    C5_battery_clamped_offline_absorbing.2.1 _ 1000 gzero 0 (by decide), ?_⟩
  have := C5_battery_clamped_offline_absorbing.2.2 scenarioOffline 1 gzero 0 _ _ _ _ hstep
    0 (bleNode 7 ⟨1, 2, 3, 4⟩ (1, 1, 1) .OFFLINE 0 []) rfl rfl
  rw [show rosterOf (scenarioOffline.simulate_step 1 gzero 0) =
    [bleNode 7 ⟨1, 2, 3, 4⟩ (1, 1, 1) .OFFLINE 0 []] from by rw [hstep]; rfl]
  exact this.symm ▸ rfl

/-- A successful `tryProtocols` run contains a successful
`can_communicate_with` call for the returned protocol. -/
theorem tryProtocols_some_ccw (node other : Node) (g : ℕ → ℚ) :
    ∀ (ps : List CommunicationType) (k : ℕ) (p : CommunicationType) (k' : ℕ),
      tryProtocols node other g ps k = (some p, k') →
      ∃ kmid, (node.can_communicate_with other p g kmid).1 = true := by
  intro ps
  induction ps with
  | nil =>
    intro k p k' h
    simp [tryProtocols] at h
  | cons q ps ih =>
    intro k p k' h
    simp only [tryProtocols] at h
    by_cases hb : (node.can_communicate_with other q g k).1 = true
    · rw [if_pos hb] at h
      simp only [Prod.mk.injEq, Option.some.injEq] at h
      exact ⟨k, by rw [← h.1]; exact hb⟩
    · rw [if_neg hb] at h
      exact ih _ p k' h

/-- `innerLoop` never raises: the `IndexError` branch of `store_encounter` is
unreachable because a successful reachability test guarantees a shared
protocol. -/
theorem innerLoop_ok (time : ℚ) (g : ℕ → ℚ) :
    ∀ (others : List Node) (node : Node) (k : ℕ),
      ∃ res, innerLoop time g others node k = .ok res := by
  intro others
  induction others with
  | nil =>
    intro node k
    exact ⟨(node, [], k), rfl⟩
  | cons other rest ih =>
    intro node k
    by_cases hid : node.id = other.id
    · obtain ⟨res, hres⟩ := ih node k
      exact ⟨res, (innerLoop_skip time g other rest node k hid).trans hres⟩
    · cases htp : tryProtocols node other g CommunicationType.all k with
      | mk o k1 =>
        cases o with
        | none =>
          obtain ⟨res, hres⟩ := ih node k1
          exact ⟨res, (innerLoop_noconn time g other rest node k k1 hid htp).trans hres⟩
        | some p =>
          obtain ⟨kmid, hcm⟩ := tryProtocols_some_ccw node other g _ k p k1 htp
          obtain ⟨hpa, hpb⟩ := ccw_true_mem node other p g kmid hcm
          obtain ⟨q, hst, _, _⟩ := store_encounter_spec node other time
            ⟨p, Finset.mem_inter.mpr ⟨hpa, hpb⟩⟩
          obtain ⟨⟨node2, cs2, k2⟩, hres⟩ := ih _ k1
          exact ⟨(node2, (node.id, other.id, p) :: cs2, k2),
            innerLoop_conn time g other rest node _ node2 k k1 k2 p cs2 hid htp hst hres⟩

/-- `procNode` never raises, and it preserves the roster length. -/
theorem procNode_ok (bounds : ℚ × ℚ × ℚ) (time dt : ℚ) (g : ℕ → ℚ)
    (st : SimState) (i : ℕ) :
    ∃ st', procNode bounds time dt g st i = .ok st' ∧
      st'.nodes.length = st.nodes.length := by
  cases h0 : st.nodes[i]? with
  | none =>
    refine ⟨st, ?_, rfl⟩
    simp only [procNode, h0]
  | some node0 =>
    by_cases hoff : node0.state = .OFFLINE
    · exact ⟨st, procNode_eval_offline bounds time dt g st i node0 h0 hoff, rfl⟩
    · by_cases hact : ((boundaryReflect bounds (node0.update_position dt)).drain_battery
          ((∑ p ∈ (boundaryReflect bounds (node0.update_position dt)).protocols,
            Node.BATTERY_DRAIN_RATES p) * dt) g st.k).1.state = .ACTIVE
      · obtain ⟨⟨node4, cs, k2⟩, hil⟩ := innerLoop_ok time g
          (st.nodes.set i ((boundaryReflect bounds (node0.update_position dt)).drain_battery
            ((∑ p ∈ (boundaryReflect bounds (node0.update_position dt)).protocols,
              Node.BATTERY_DRAIN_RATES p) * dt) g st.k).1)
          ((boundaryReflect bounds (node0.update_position dt)).drain_battery
            ((∑ p ∈ (boundaryReflect bounds (node0.update_position dt)).protocols,
              Node.BATTERY_DRAIN_RATES p) * dt) g st.k).1
          ((boundaryReflect bounds (node0.update_position dt)).drain_battery
            ((∑ p ∈ (boundaryReflect bounds (node0.update_position dt)).protocols,
              Node.BATTERY_DRAIN_RATES p) * dt) g st.k).2
        refine ⟨_, procNode_eval_active bounds time dt g st.nodes i st.active st.conns st.k
          node0 _ node4 _ k2 cs h0 hoff rfl hact hil, ?_⟩
        simp [List.length_set]
      · refine ⟨_, procNode_eval_inactive bounds time dt g st.nodes i st.active st.conns st.k
          node0 _ _ h0 hoff rfl hact, ?_⟩
        simp [List.length_set]

/-- The roster fold never raises and preserves the roster length. -/
theorem fold_ok (bounds : ℚ × ℚ × ℚ) (time dt : ℚ) (g : ℕ → ℚ) :
    ∀ (L : List ℕ) (st : SimState), ∃ st',
      L.foldlM (procNode bounds time dt g) st = .ok st' ∧
      st'.nodes.length = st.nodes.length := by
  intro L
  induction L with
  | nil =>
    intro st
    exact ⟨st, by rw [List.foldlM_nil]; rfl, rfl⟩
  | cons x xs ih =>
    intro st
    obtain ⟨mid, h1, hl1⟩ := procNode_ok bounds time dt g st x
    obtain ⟨fin, h2, hl2⟩ := ih mid
    exact ⟨fin, by rw [List.foldlM_cons, h1, except_ok_bind]; exact h2, hl2.trans hl1⟩

/-- C10: (i) a successful `can_communicate_with` requires the protocol in
both protocol sets, so (ii) whenever `simulate_step` calls `store_encounter`
the intersection is nonempty — taking its first element succeeds and the
logged protocol label belongs to both nodes' protocol sets; consequently
(iii) `simulate_step` can only raise on the empty-roster metrics line: for
every nonempty roster the tick returns `.ok`. -/
theorem C10_store_encounter_never_fails :
    (∀ (a b : Node) (p : CommunicationType) (g : ℕ → ℚ) (k : ℕ),
      (a.can_communicate_with b p g k).1 = true → p ∈ a.protocols ∧ p ∈ b.protocols) ∧
    (∀ (a b : Node) (t : ℚ), (a.protocols ∩ b.protocols).Nonempty →
      ∃ p, a.store_encounter b t = some { a with memory_encounters :=
          a.memory_encounters ++ [⟨b.id, t, (b.position.x, b.position.y, b.position.z), p⟩] } ∧
        p ∈ a.protocols ∧ p ∈ b.protocols) ∧
    (∀ (m : NetworkMesh) (dt : ℚ) (g : ℕ → ℚ) (k : ℕ), m.nodes ≠ [] →
      ∃ r, m.simulate_step dt g k = .ok r) := by
  refine ⟨ccw_true_mem, store_encounter_spec, ?_⟩
  intro m dt g k hne
  obtain ⟨st, hf, hlen⟩ := fold_ok m.bounds (m.time + dt) dt g
    (List.range m.nodes.length) ⟨m.nodes, 0, [], k⟩
  cases hsn : st.nodes with
  | nil =>
    exfalso
    rw [hsn] at hlen
    exact hne (List.eq_nil_of_length_eq_zero hlen.symm)
  | cons n0 rest =>
    exact ⟨_, simulate_step_eval m dt g k st n0 rest hf hsn⟩

/-- Witness for C10 at concrete inputs: a successful `BLE` contact between
two `BLE`-only nodes, a successful `store_encounter` on their intersection,
and a completed tick on the nonempty `scenarioPair` roster. -/
theorem C10_store_encounter_never_fails_witness :
    (CommunicationType.BLE ∈ (bleNode 0 ⟨0, 0, 0, 0⟩ (0, 0, 0) .ACTIVE 100 []).protocols ∧
      CommunicationType.BLE ∈ (bleNode 1 ⟨5, 0, 0, 0⟩ (0, 0, 0) .ACTIVE 100 []).protocols) ∧
    (∃ p, (bleNode 0 ⟨0, 0, 0, 0⟩ (0, 0, 0) .ACTIVE 100 []).store_encounter
        (bleNode 1 ⟨5, 0, 0, 0⟩ (0, 0, 0) .ACTIVE 100 []) 1 =
        some { bleNode 0 ⟨0, 0, 0, 0⟩ (0, 0, 0) .ACTIVE 100 [] with memory_encounters :=
          (bleNode 0 ⟨0, 0, 0, 0⟩ (0, 0, 0) .ACTIVE 100 []).memory_encounters ++
            [⟨(bleNode 1 ⟨5, 0, 0, 0⟩ (0, 0, 0) .ACTIVE 100 []).id, 1,
              ((bleNode 1 ⟨5, 0, 0, 0⟩ (0, 0, 0) .ACTIVE 100 []).position.x,
               (bleNode 1 ⟨5, 0, 0, 0⟩ (0, 0, 0) .ACTIVE 100 []).position.y,
               (bleNode 1 ⟨5, 0, 0, 0⟩ (0, 0, 0) .ACTIVE 100 []).position.z), p⟩] } ∧
      p ∈ (bleNode 0 ⟨0, 0, 0, 0⟩ (0, 0, 0) .ACTIVE 100 []).protocols ∧
      p ∈ (bleNode 1 ⟨5, 0, 0, 0⟩ (0, 0, 0) .ACTIVE 100 []).protocols) ∧
    (∃ r, scenarioPair.simulate_step 1 gzero 0 = .ok r) := by
  refine ⟨?_, ?_, ?_⟩
  · exact C10_store_encounter_never_fails.1
      (bleNode 0 ⟨0, 0, 0, 0⟩ (0, 0, 0) .ACTIVE 100 [])
      (bleNode 1 ⟨5, 0, 0, 0⟩ (0, 0, 0) .ACTIVE 100 []) .BLE gzero 0 (by decide)
  · exact C10_store_encounter_never_fails.2.1
      (bleNode 0 ⟨0, 0, 0, 0⟩ (0, 0, 0) .ACTIVE 100 [])
      (bleNode 1 ⟨5, 0, 0, 0⟩ (0, 0, 0) .ACTIVE 100 []) 1 ⟨.BLE, by decide⟩
  · exact C10_store_encounter_never_fails.2.2 scenarioPair 1 gzero 0 (by decide)

theorem failRun_nil (node other : Node) (g : ℕ → ℚ) (k : ℕ) :
    failRun node other g [] k = some k := rfl

theorem failRun_cons_false (node other : Node) (g : ℕ → ℚ) (q : CommunicationType)
    (l : List CommunicationType) (k : ℕ)
    (hB : (node.can_communicate_with other q g k).1 = false) :
    failRun node other g (q :: l) k =
      failRun node other g l (node.can_communicate_with other q g k).2 := by
  simp only [failRun, hB]
  rfl

/-- First-success specification of the protocol loop: a `none` outcome means
every protocol of the list failed in sequence; a `some p` outcome decomposes
the list as `l1 ++ p :: l2` where every protocol of `l1` failed in sequence,
`p` then succeeded, and — the `break` — nothing of `l2` was attempted (the
returned counter is exactly the one after `p`'s success). -/
theorem tryProtocols_run (node other : Node) (g : ℕ → ℚ) :
    ∀ (ps : List CommunicationType) (k : ℕ),
      (∀ k', tryProtocols node other g ps k = (none, k') →
        failRun node other g ps k = some k') ∧
      (∀ (p : CommunicationType) (k' : ℕ),
        tryProtocols node other g ps k = (some p, k') →
        ∃ l1 l2 kmid, ps = l1 ++ p :: l2 ∧ failRun node other g l1 k = some kmid ∧
          node.can_communicate_with other p g kmid = (true, k')) := by
  intro ps
  induction ps with
  | nil =>
    intro k
    constructor
    · intro k' h
      simp only [tryProtocols, Prod.mk.injEq] at h
      rw [failRun_nil, h.2]
    · intro p k' h
      simp [tryProtocols] at h
  | cons q ps ih =>
    intro k
    cases hB : (node.can_communicate_with other q g k).1 with
    | true =>
      have htq : tryProtocols node other g (q :: ps) k =
          (some q, (node.can_communicate_with other q g k).2) := by
        simp only [tryProtocols]
        rw [hB]
        rfl
      constructor
      · intro k' h
        rw [htq] at h
        simp at h
      · intro p k' h
        rw [htq] at h
        simp only [Prod.mk.injEq, Option.some.injEq] at h
        obtain ⟨h1, h2⟩ := h
        subst h1
        refine ⟨[], ps, k, rfl, failRun_nil node other g k, ?_⟩
        rw [Prod.ext_iff]
        exact ⟨hB, h2⟩
    | false =>
      have hc : node.can_communicate_with other q g k =
          (false, (node.can_communicate_with other q g k).2) :=
        Prod.ext_iff.mpr ⟨hB, rfl⟩
      have htq := tryProtocols_cons_false node other g q ps k
        (node.can_communicate_with other q g k).2 hc
      have hfq := failRun_cons_false node other g q ps k hB
      constructor
      · intro k' h
        rw [htq] at h
        rw [hfq]
        exact (ih _).1 k' h
      · intro p k' h
        rw [htq] at h
        obtain ⟨l1, l2, kmid, he, hfr, hcm⟩ := (ih _).2 p k' h
        refine ⟨q :: l1, l2, kmid, by rw [he, List.cons_append], ?_, hcm⟩
        rw [failRun_cons_false node other g q l1 k hB]
        exact hfr

theorem pairCount_append (a b : ℤ) (l1 l2 : List Conn) :
    pairCount a b (l1 ++ l2) = pairCount a b l1 + pairCount a b l2 := by
  unfold pairCount
  rw [List.filter_append, List.length_append]

/-- Setting an index to the element it already holds is the identity. -/
theorem set_getElem_self_eq {α : Type} :
    ∀ (l : List α) (i : ℕ) (x : α), l[i]? = some x → l.set i x = l
  | [], i, x, h => by simp at h
  | a :: l, 0, x, h => by
    simp only [List.getElem?_cons_zero, Option.some.injEq] at h
    rw [← h]
    rfl
  | a :: l, i + 1, x, h => by
    simp only [List.getElem?_cons_succ] at h
    simp only [List.set_cons_succ]
    rw [set_getElem_self_eq l i x h]

/-- A batch of connections whose sources all equal `s` and whose targets form
a sublist of a duplicate-free id list contributes at most one record to any
ordered pair, and none when the source differs. -/
theorem pairCount_batch_le (a b : ℤ) (cs : List Conn) (s : ℤ) (ids : List ℤ)
    (hsrc : ∀ c ∈ cs, c.1 = s)
    (htgt : List.Sublist (cs.map (fun c => c.2.1)) ids)
    (hnd : ids.Nodup) :
    pairCount a b cs ≤ if s = a then 1 else 0 := by
  by_cases hs : s = a
  · rw [if_pos hs]
    have h1 : pairCount a b cs ≤ (cs.map (fun c => c.2.1)).count b := by
      unfold pairCount
      rw [← List.countP_eq_length_filter, List.count_eq_countP, List.countP_map]
      apply List.countP_mono_left
      intro c hc hpc
      simp only [decide_eq_true_eq] at hpc
      simp only [Function.comp_apply, beq_iff_eq]
      exact hpc.2
    exact h1.trans ((htgt.count_le b).trans (List.nodup_iff_count_le_one.mp hnd b))
  · rw [if_neg hs]
    unfold pairCount
    rw [List.filter_eq_nil_iff.mpr]
    · rfl
    · intro c hc hd
      simp only [decide_eq_true_eq] at hd
      exact hs ((hsrc c hc).symm.trans hd.1)

/-- `procNode` never changes the roster's id sequence. -/
theorem procNode_preserves_ids (bounds : ℚ × ℚ × ℚ) (time dt : ℚ) (g : ℕ → ℚ)
    (st st' : SimState) (i : ℕ)
    (h : procNode bounds time dt g st i = .ok st') :
    st'.nodes.map Node.id = st.nodes.map Node.id := by
  rcases procNode_inv bounds time dt g st st' i h with heq |
    ⟨node0, n3, n4, cs, h0, _, hid3, hid4, hn, _, _, _⟩
  · rw [heq]
  · rw [hn, List.map_set, List.map_set, hid3, hid4, List.set_set]
    exact set_getElem_self_eq _ _ _ (by rw [List.getElem?_map, h0]; rfl)

/-- Over a duplicate-free id list, at most one roster index holds id `a`. -/
theorem countP_id_indices_le_one (ns : List Node) (a : ℤ)
    (hnd : (ns.map Node.id).Nodup) :
    (List.range ns.length).countP
      (fun i => decide ((ns[i]?).map Node.id = some a)) ≤ 1 := by
  rw [List.countP_eq_length_filter]
  cases hF : (List.range ns.length).filter
      (fun i => decide ((ns[i]?).map Node.id = some a)) with
  | nil => simp
  | cons i t =>
    cases ht : t with
    | nil => simp
    | cons j t2 =>
      exfalso
      have hFnd : ((List.range ns.length).filter
          (fun i => decide ((ns[i]?).map Node.id = some a))).Nodup :=
        (List.nodup_range _).filter _
      rw [hF, ht] at hFnd
      have hij : i ≠ j := by
        intro hij
        rw [hij] at hFnd
        exact (List.nodup_cons.mp hFnd).1 (List.mem_cons_self _ _)
      have hi : i ∈ (List.range ns.length).filter
          (fun i => decide ((ns[i]?).map Node.id = some a)) := by
        rw [hF]; exact List.mem_cons_self _ _
      have hj : j ∈ (List.range ns.length).filter
          (fun i => decide ((ns[i]?).map Node.id = some a)) := by
        rw [hF, ht]; exact List.mem_cons_of_mem _ (List.mem_cons_self _ _)
      have hi2 : ((ns.map Node.id))[i]? = some a := by
        have := List.of_mem_filter hi
        simp only [decide_eq_true_eq] at this
        rw [List.getElem?_map]
        exact this
      have hj2 : ((ns.map Node.id))[j]? = some a := by
        have := List.of_mem_filter hj
        simp only [decide_eq_true_eq] at this
        rw [List.getElem?_map]
        exact this
      obtain ⟨hi1, hi3⟩ := List.getElem?_eq_some.mp hi2
      obtain ⟨hj1, hj3⟩ := List.getElem?_eq_some.mp hj2
      exact hij ((List.Nodup.getElem_inj_iff hnd).mp (hi3.trans hj3.symm))

/-- Per-pair connection bound over the whole roster fold: starting from
connection list `conns`, the final list holds at most one extra `(a, b)`
record per index of `L` whose node carries id `a` — with duplicate-free ids,
at most one in total. -/
theorem fold_pairCount (bounds : ℚ × ℚ × ℚ) (time dt : ℚ) (g : ℕ → ℚ) :
    ∀ (L : List ℕ) (st st' : SimState),
      (st.nodes.map Node.id).Nodup →
      L.foldlM (procNode bounds time dt g) st = .ok st' →
      ∀ a b, pairCount a b st'.conns ≤ pairCount a b st.conns +
        L.countP (fun i => decide ((st.nodes[i]?).map Node.id = some a)) := by
  intro L
  induction L with
  | nil =>
    intro st st' hnd h a b
    rw [← foldlM_nil_ok _ _ _ h]
    simp
  | cons x xs ih =>
    intro st st' hnd h a b
    obtain ⟨mid, h1, h2⟩ := foldlM_ok_cons _ _ _ _ _ h
    have hids := procNode_preserves_ids bounds time dt g st mid x h1
    have hndm : (mid.nodes.map Node.id).Nodup := by
      rw [hids]
      exact hnd
    have hstep : pairCount a b mid.conns ≤ pairCount a b st.conns +
        (if (st.nodes[x]?).map Node.id = some a then 1 else 0) := by
      rcases procNode_inv bounds time dt g st mid x h1 with heq |
        ⟨node0, n3, n4, cs, h0, _, hid3, _, _, hcs, hsrc, htgt⟩
      · rw [heq]
        simp
      · rw [hcs, pairCount_append]
        have hsetids : (st.nodes.set x n3).map Node.id = st.nodes.map Node.id := by
          rw [List.map_set, hid3]
          exact set_getElem_self_eq _ _ _ (by rw [List.getElem?_map, h0]; rfl)
        have hbatch := pairCount_batch_le a b cs node0.id (st.nodes.map Node.id)
          hsrc (hsetids ▸ htgt) hnd
        have hcond : (if node0.id = a then 1 else 0) ≤
            (if (st.nodes[x]?).map Node.id = some a then (1 : ℕ) else 0) := by
          by_cases hca : node0.id = a
          · rw [if_pos hca, if_pos (by rw [h0]; simp [hca])]
          · rw [if_neg hca]
            exact Nat.zero_le _
        exact Nat.add_le_add_left (hbatch.trans hcond) _
    have hcount : xs.countP (fun i => decide ((mid.nodes[i]?).map Node.id = some a)) =
        xs.countP (fun i => decide ((st.nodes[i]?).map Node.id = some a)) := by
      apply List.countP_congr
      intro i _
      simp only [decide_eq_true_eq]
      rw [← List.getElem?_map, ← List.getElem?_map, hids]
    have hrest := ih mid st' hndm h2 a b
    rw [hcount] at hrest
    rw [List.countP_cons]
    by_cases hx : (st.nodes[x]?).map Node.id = some a
    · rw [if_pos hx] at hstep
      rw [if_pos (by simp [hx])]
      omega
    · rw [if_neg hx] at hstep
      rw [if_neg (by simp [hx])]
      omega

/-- C8: protocols are attempted in the enumeration order
`BLE, WIFI, GPS, CUSTOM`; a recorded protocol is the first in that order to
succeed — everything before it failed in sequence, and the loop `break`s at
the success (the returned random counter is the one right after it, so no
later protocol is attempted); and in a tick over a roster with
duplicate-free ids, every ordered pair contributes at most one connection
record. -/
theorem C8_first_success_tie_break :
    CommunicationType.all = [.BLE, .WIFI, .GPS, .CUSTOM] ∧
    (∀ (node other : Node) (g : ℕ → ℚ) (k : ℕ) (p : CommunicationType) (k' : ℕ),
      tryProtocols node other g CommunicationType.all k = (some p, k') →
      ∃ l1 l2 kmid, CommunicationType.all = l1 ++ p :: l2 ∧
        failRun node other g l1 k = some kmid ∧
        node.can_communicate_with other p g kmid = (true, k')) ∧
    (∀ (m : NetworkMesh) (dt : ℚ) (g : ℕ → ℚ) (k : ℕ) (m1 : NetworkMesh)
      (rep : StepReport) (cs : List Conn) (k1 : ℕ),
      (m.nodes.map Node.id).Nodup →
      m.simulate_step dt g k = .ok (m1, rep, cs, k1) →
      ∀ a b : ℤ, pairCount a b cs ≤ 1) := by
  refine ⟨rfl, ?_, ?_⟩
  · intro node other g k p k' h
    exact (tryProtocols_run node other g CommunicationType.all k).2 p k' h
  · intro m dt g k m1 rep cs k1 hnd h a b
    obtain ⟨st, hf, _, hcs, _⟩ := simulate_step_inv m dt g k m1 rep cs k1 h
    rw [hcs]
    have hmain := fold_pairCount m.bounds (m.time + dt) dt g (List.range m.nodes.length)
      ⟨m.nodes, 0, [], k⟩ st hnd hf a b
    have hb := countP_id_indices_le_one m.nodes a hnd
    have h0 : pairCount a b
        ({ nodes := m.nodes, active := 0, conns := [], k := k } : SimState).conns = 0 := rfl
    rw [h0, Nat.zero_add] at hmain
    exact hmain.trans hb

/-- Witness for C8 at concrete inputs: in the pair scenario's first contact
the recorded protocol `BLE` heads the enumeration with an empty failed
prefix, and the tick's connection list holds the ordered pair `(0,1)` at
most once. -/
theorem C8_first_success_tie_break_witness :
    (∃ l1 l2 kmid, CommunicationType.all = l1 ++ CommunicationType.BLE :: l2 ∧
      failRun (bleNode 0 ⟨0, 0, 0, 0⟩ (0, 0, 0) .ACTIVE 100 [])
        (bleNode 1 ⟨5, 0, 0, 0⟩ (0, 0, 0) .ACTIVE 100 []) gzero l1 0 = some kmid ∧
      (bleNode 0 ⟨0, 0, 0, 0⟩ (0, 0, 0) .ACTIVE 100 []).can_communicate_with
        (bleNode 1 ⟨5, 0, 0, 0⟩ (0, 0, 0) .ACTIVE 100 []) .BLE gzero kmid = (true, 1)) ∧
    pairCount 0 1 [(0, 1, CommunicationType.BLE), (1, 0, CommunicationType.BLE)] ≤ 1 := by
  constructor
  · exact C8_first_success_tie_break.2.1
      (bleNode 0 ⟨0, 0, 0, 0⟩ (0, 0, 0) .ACTIVE 100 [])
      (bleNode 1 ⟨5, 0, 0, 0⟩ (0, 0, 0) .ACTIVE 100 []) gzero 0 .BLE 1 (by decide)
  · have hstep : scenarioPair.simulate_step 1 gzero 0 = .ok
        (⟨[bleNode 0 ⟨0, 0, 0, 1⟩ (0, 0, 0) .ACTIVE (12499 / 125) [⟨1, 1, (5, 0, 0), .BLE⟩],
           bleNode 1 ⟨5, 0, 0, 1⟩ (0, 0, 0) .ACTIVE (12499 / 125) [⟨0, 1, (0, 0, 0), .BLE⟩]],
          1, (1000, 1000, 1000)⟩,
         ⟨1, 2, 2, 12499 / 125, 12499 / 125⟩, [(0, 1, .BLE), (1, 0, .BLE)], 4) := by rfl
    exact C8_first_success_tie_break.2.2 scenarioPair 1 gzero 0 _ _ _ _ (by decide) hstep 0 1
